import Mathlib

/-!
Shallow embedding of the plugah repository: the OAG domain schema, the
budget manager, the metrics engine, the tool registry, the executor and
wave executor, the organization planner, and the orchestrator state
persistence, together with theorems settling the frozen claims about them.

Money amounts are modelled as exact rationals.  The Python sources compute
with IEEE floats, but every claim under scrutiny concerns the algebraic and
branching structure of the code, for which the decimal literals are read
exactly (0.9 as 9/10 and so on).
-/

namespace Plugah

/-- Role levels (src/plugah/oag_schema.py, RoleLevel). -/
inductive RoleLevel where
  | C_SUITE
  | VP
  | DIRECTOR
  | MANAGER
  | IC
  | EXTERNAL
deriving DecidableEq, Repr

/-- Task lifecycle states (src/plugah/oag_schema.py, TaskStatus). -/
inductive TaskStatus where
  | PLANNED
  | READY
  | RUNNING
  | DONE
  | FAILED
  | SKIPPED
deriving DecidableEq, Repr

/-- Metric comparison directions (src/plugah/oag_schema.py, Direction). -/
inductive Direction where
  | GTE
  | LTE
  | EQ
deriving DecidableEq, Repr

/-- Budget policies of the full pipeline (src/plugah/oag_schema.py, BudgetPolicy). -/
inductive BudgetPolicy where
  | CONSERVATIVE
  | BALANCED
  | AGGRESSIVE
deriving DecidableEq, Repr

/-- Agent reusability flag (src/plugah/oag_schema.py, Reusability). -/
inductive Reusability where
  | EXCLUSIVE
  | SHARED
deriving DecidableEq, Repr

/-- Project metadata (src/plugah/oag_schema.py, OrgMeta).  Timestamps are
opaque strings here; nothing under verification inspects them. -/
structure OrgMeta where
  project_id : String
  title : String
  domain : Option String := none
  version : Nat := 1
deriving DecidableEq, Repr

/-- src/plugah/oag_schema.py, Objective. -/
structure Objective where
  id : String
  title : String
  description : String
  owner_agent_id : String
deriving DecidableEq, Repr

/-- src/plugah/oag_schema.py, KeyResult.  target and current are numeric. -/
structure KeyResult where
  id : String
  objective_id : String
  metric : String
  target : ℚ
  current : ℚ := 0
  direction : Direction := .GTE
deriving DecidableEq, Repr

/-- src/plugah/oag_schema.py, OKR. -/
structure OKR where
  objective : Objective
  key_results : List KeyResult := []
deriving DecidableEq, Repr

/-- src/plugah/oag_schema.py, KPI. -/
structure KPI where
  id : String
  metric : String
  target : ℚ
  current : ℚ := 0
  direction : Direction := .GTE
  owner_agent_id : String
deriving DecidableEq, Repr

/-- src/plugah/oag_schema.py, ContractIO. -/
structure ContractIO where
  name : String
  dtype : String
  description : String
  required : Bool := true
deriving DecidableEq, Repr

/-- src/plugah/oag_schema.py, Contract. -/
structure Contract where
  inputs : List ContractIO := []
  outputs : List ContractIO := []
  definition_of_done : String
deriving DecidableEq, Repr

/-- src/plugah/oag_schema.py, ToolRef.  The optional argument map is not
used by any code under verification and is elided. -/
structure ToolRef where
  id : String
deriving DecidableEq, Repr

/-- src/plugah/oag_schema.py, BudgetCaps. -/
structure BudgetCaps where
  hard_cap_usd : ℚ
  soft_cap_usd : ℚ
deriving DecidableEq, Repr

/-- src/plugah/oag_schema.py, CostTrack. -/
structure CostTrack where
  est_cost_usd : ℚ := 0
  actual_cost_usd : ℚ := 0
  token_estimate : Nat := 0
deriving DecidableEq, Repr

/-- src/plugah/oag_schema.py, AgentSpec.  The node_type tag is carried by
the Node sum type below. -/
structure AgentSpec where
  id : String
  role : String
  level : RoleLevel
  manager_id : Option String := none
  specialization : Option String := none
  system_prompt : String := ""
  tools : List ToolRef := []
  llm : Option String := none
  okrs : List OKR := []
  kpis : List KPI := []
  reusability : Reusability := .EXCLUSIVE
deriving DecidableEq, Repr

/-- src/plugah/oag_schema.py, TaskSpec.  Artifact values are opaque strings
(the executor's mock path stores string-valued artifacts). -/
structure TaskSpec where
  id : String
  description : String
  agent_id : String
  contract : Contract
  expected_output : String
  status : TaskStatus := .PLANNED
  artifacts : List (String × String) := []
  cost : CostTrack := {}
  dependencies : List String := []
deriving DecidableEq, Repr

/-- src/plugah/oag_schema.py, Edge. -/
structure Edge where
  id : String
  from_id : String
  to_id : String
  condition : Option String := none
  mapping : List (String × String) := []
deriving DecidableEq, Repr

/-- src/plugah/oag_schema.py, BudgetModel. -/
structure BudgetModel where
  caps : BudgetCaps
  forecast_cost_usd : ℚ := 0
  actual_cost_usd : ℚ := 0
  policy : BudgetPolicy := .BALANCED
deriving DecidableEq, Repr

/-- A graph node is either an agent or a task (src/plugah/oag_schema.py
stores both shapes in one id-keyed map, disambiguated by a node_type tag). -/
inductive Node where
  | agent : AgentSpec → Node
  | task : TaskSpec → Node
deriving DecidableEq, Repr

/-- The id carried by a node itself. -/
def Node.id : Node → String
  | .agent a => a.id
  | .task t => t.id

/-- The aggregate root (src/plugah/oag_schema.py, OAG).  The nodes map is a
Python dict; it is modelled as an insertion-ordered association list whose
keys are unique by construction. -/
structure OAG where
  meta : OrgMeta
  budget : BudgetModel
  nodes : List (String × Node)
  edges : List Edge := []
deriving DecidableEq, Repr

/-- Python dict assignment d[k] = v: replace in place if the key is present,
append otherwise. -/
def dictUpd {α : Type} (xs : List (String × α)) (k : String) (v : α) :
    List (String × α) :=
  if (xs.lookup k).isSome then
    xs.map (fun p => if p.1 = k then (k, v) else p)
  else
    xs ++ [(k, v)]

/-- Pydantic validator OAG.validate_node_types: raises on the first map key
that differs from the contained node's own id. -/
def validate_node_types : List (String × Node) → Except String (List (String × Node))
  | [] => .ok []
  | (k, n) :: rest =>
      if k ≠ n.id then
        .error ("Node ID mismatch: " ++ k ++ " != " ++ n.id)
      else
        match validate_node_types rest with
        | .ok r => .ok ((k, n) :: r)
        | .error e => .error e

/-- Constructing an OAG runs the node-key validator (pydantic model
construction in the source). -/
def mkOAG (meta : OrgMeta) (budget : BudgetModel) (nodes : List (String × Node))
    (edges : List Edge) : Except String OAG :=
  match validate_node_types nodes with
  | .ok ns => .ok { meta := meta, budget := budget, nodes := ns, edges := edges }
  | .error e => .error e

/-- OAG.get_agents: filter the nodes map to agent entries. -/
def OAG.get_agents (oag : OAG) : List (String × AgentSpec) :=
  oag.nodes.filterMap fun p =>
    match p.2 with
    | .agent a => some (p.1, a)
    | .task _ => none

/-- OAG.get_tasks: filter the nodes map to task entries. -/
def OAG.get_tasks (oag : OAG) : List (String × TaskSpec) :=
  oag.nodes.filterMap fun p =>
    match p.2 with
    | .agent _ => none
    | .task t => some (p.1, t)

/-- OAG.get_node. -/
def OAG.get_node (oag : OAG) (node_id : String) : Option Node :=
  oag.nodes.lookup node_id

/-- OAG.add_node: inserts under the node's own id. -/
def OAG.add_node (oag : OAG) (node : Node) : OAG :=
  { oag with nodes := dictUpd oag.nodes node.id node }

/-- OAG.add_edge. -/
def OAG.add_edge (oag : OAG) (edge : Edge) : OAG :=
  { oag with edges := oag.edges ++ [edge] }

/-- OAG.get_dependencies: from_ids of all edges pointing at the task. -/
def OAG.get_dependencies (oag : OAG) (task_id : String) : List String :=
  oag.edges.filterMap fun e => if e.to_id = task_id then some e.from_id else none

/-- The invariant claimed for the nodes map: every key equals the contained
node's own id. -/
def WellKeyed (nodes : List (String × Node)) : Prop :=
  ∀ p ∈ nodes, p.1 = p.2.id

instance (nodes : List (String × Node)) : Decidable (WellKeyed nodes) := by
  unfold WellKeyed; infer_instance

/-! ## Budget manager (src/plugah/budget.py) -/

/-- Budget alert levels (src/plugah/budget.py, BudgetAlert). -/
inductive BudgetAlert where
  | NORMAL
  | WARNING
  | CRITICAL
  | EXCEEDED_SOFT
  | EMERGENCY
deriving DecidableEq, Repr

/-- The string value of a BudgetAlert (the Python enum value). -/
def BudgetAlert.value : BudgetAlert → String
  | .NORMAL => "normal"
  | .WARNING => "warning"
  | .CRITICAL => "critical"
  | .EXCEEDED_SOFT => "exceeded_soft"
  | .EMERGENCY => "emergency"

/-- One spend-history entry (the dict appended by record_spend). -/
structure SpendEntry where
  amount : ℚ
  description : String
  total_spent : ℚ
  remaining : ℚ
deriving DecidableEq, Repr

/-- One alert entry (the dict appended by BudgetManager._add_alert). -/
structure AlertEntry where
  level : BudgetAlert
  message : String
  spent : ℚ
  soft_cap : ℚ
  hard_cap : ℚ
deriving DecidableEq, Repr

/-- Mutable state of a BudgetManager. -/
structure BudgetManager where
  budget : BudgetModel
  spent : ℚ := 0
  spend_history : List SpendEntry := []
  alerts : List AlertEntry := []
deriving DecidableEq, Repr

/-- BudgetManager.get_remaining. -/
def BudgetManager.get_remaining (m : BudgetManager) : ℚ :=
  m.budget.caps.hard_cap_usd - m.spent

/-- BudgetManager.get_soft_cap_remaining. -/
def BudgetManager.get_soft_cap_remaining (m : BudgetManager) : ℚ :=
  m.budget.caps.soft_cap_usd - m.spent

/-- BudgetManager.can_proceed. -/
def BudgetManager.can_proceed (m : BudgetManager) : Bool :=
  m.spent < m.budget.caps.hard_cap_usd

/-- BudgetManager.is_near_soft_cap with the default threshold 0.9. -/
def BudgetManager.is_near_soft_cap (m : BudgetManager) : Bool :=
  m.spent ≥ m.budget.caps.soft_cap_usd * (9 / 10)

/-- BudgetManager.is_near_hard_cap with the default threshold 0.9. -/
def BudgetManager.is_near_hard_cap (m : BudgetManager) : Bool :=
  m.spent ≥ m.budget.caps.hard_cap_usd * (9 / 10)

/-- BudgetManager.can_afford_task. -/
def BudgetManager.can_afford_task (m : BudgetManager) (estimated_cost : ℚ) : Bool :=
  m.spent + estimated_cost ≤ m.budget.caps.hard_cap_usd

/-- BudgetManager.get_alert_level: the strict ladder evaluated top-down. -/
def BudgetManager.get_alert_level (m : BudgetManager) : BudgetAlert :=
  let soft_cap := m.budget.caps.soft_cap_usd
  let hard_cap := m.budget.caps.hard_cap_usd
  if m.spent ≥ hard_cap * (9 / 10) then .EMERGENCY
  else if m.spent ≥ soft_cap then .EXCEEDED_SOFT
  else if m.spent ≥ soft_cap * (9 / 10) then .CRITICAL
  else if m.spent ≥ soft_cap * (7 / 10) then .WARNING
  else .NORMAL

/-- BudgetManager._add_alert. -/
def BudgetManager.add_alert (m : BudgetManager) (level : BudgetAlert)
    (message : String) : BudgetManager :=
  { m with
    alerts := m.alerts ++
      [{ level := level, message := message, spent := m.spent,
         soft_cap := m.budget.caps.soft_cap_usd,
         hard_cap := m.budget.caps.hard_cap_usd }] }

/-- BudgetManager._check_alerts. -/
def BudgetManager.check_alerts (m : BudgetManager) : BudgetManager :=
  let alert_level := m.get_alert_level
  if alert_level ≠ .NORMAL then
    m.add_alert alert_level ("Budget alert: " ++ alert_level.value)
  else
    m

/-- BudgetManager.record_spend: returns the boolean result together with the
updated manager state (the Python method mutates in place). -/
def BudgetManager.record_spend (m : BudgetManager) (amount : ℚ)
    (description : String := "") : Bool × BudgetManager :=
  if m.spent + amount > m.budget.caps.hard_cap_usd then
    (false, m.add_alert .EMERGENCY "Spend would exceed hard cap")
  else
    let m1 : BudgetManager := { m with spent := m.spent + amount }
    let m2 : BudgetManager :=
      { m1 with budget := { m1.budget with actual_cost_usd := m1.spent } }
    let m3 : BudgetManager :=
      { m2 with
        spend_history := m2.spend_history ++
          [{ amount := amount, description := description,
             total_spent := m2.spent, remaining := m2.get_remaining }] }
    (true, m3.check_alerts)

/-- Folding a sequence of record_spend calls (discarding the booleans),
starting from a given manager state. -/
def BudgetManager.spendAll (m : BudgetManager) (amounts : List ℚ) : BudgetManager :=
  amounts.foldl (fun acc a => (acc.record_spend a).2) m

/-- A fresh manager over a budget model: spent starts at zero with empty
history and alert logs (BudgetManager.__init__). -/
def BudgetManager.init (budget : BudgetModel) : BudgetManager :=
  { budget := budget }

/-! ## Metrics engine (src/plugah/metrics.py) -/

/-- Association-list lookup with a default, mirroring Python dict.get. -/
def lookupD (xs : List (String × ℚ)) (k : String) (dflt : ℚ) : ℚ :=
  match xs.lookup k with
  | some v => v
  | none => dflt

/-- The live-value state of a MetricsEngine (kr_values and kpi_values maps);
the engine also holds the OAG, carried separately where needed. -/
structure MetricsEngine where
  kr_values : List (String × ℚ) := []
  kpi_values : List (String × ℚ) := []
deriving DecidableEq, Repr

/-- The per-key-result attainment computed inside
MetricsEngine.calculate_okr_attainment, including the cap at 100. -/
def MetricsEngine.kr_attainment (e : MetricsEngine) (kr : KeyResult) : ℚ :=
  let current := lookupD e.kr_values kr.id kr.current
  let attainment :=
    match kr.direction with
    | .GTE => if kr.target > 0 then current / kr.target * 100 else 0
    | .LTE => if current > 0 then kr.target / current * 100 else 100
    | .EQ => if current = kr.target then 100 else 0
  min attainment 100

/-- MetricsEngine.calculate_okr_attainment. -/
def MetricsEngine.calculate_okr_attainment (e : MetricsEngine) (okr : OKR) : ℚ :=
  if okr.key_results.isEmpty then 0
  else
    (okr.key_results.foldl (fun acc kr => acc + e.kr_attainment kr) 0) /
      okr.key_results.length

/-- MetricsEngine.calculate_kpi_attainment. -/
def MetricsEngine.calculate_kpi_attainment (e : MetricsEngine) (kpi : KPI) : ℚ :=
  let current := lookupD e.kpi_values kpi.id kpi.current
  let attainment :=
    match kpi.direction with
    | .GTE => if kpi.target > 0 then current / kpi.target * 100 else 0
    | .LTE => if current > 0 then kpi.target / current * 100 else 100
    | .EQ => if current = kpi.target then 100 else 0
  min attainment 100

/-- The attainment formula exactly as the specification words it, for one
metric with a resolved current value: GTE gives current/target x 100 (0 if
target is nonpositive), LTE gives target/current x 100 (100 if current is
nonpositive), EQ gives all-or-nothing, and every case is capped at 100. -/
def attainmentSpec (direction : Direction) (target current : ℚ) : ℚ :=
  let raw :=
    match direction with
    | .GTE => if target ≤ 0 then 0 else current / target * 100
    | .LTE => if current ≤ 0 then 100 else target / current * 100
    | .EQ => if current = target then 100 else 0
  min raw 100

/-- The OKR attainment as the specification words it: the unweighted mean of
the key results' attainments, 0 when there are none. -/
def okrAttainmentSpec (e : MetricsEngine) (okr : OKR) : ℚ :=
  if okr.key_results = [] then 0
  else
    ((okr.key_results.map fun kr =>
        attainmentSpec kr.direction kr.target (lookupD e.kr_values kr.id kr.current)).sum) /
      okr.key_results.length

/-! ## Tool registry (src/plugah/registry.py) -/

/-- Tool categories (src/plugah/registry.py, ToolCategory). -/
inductive ToolCategory where
  | RESEARCH
  | CODE
  | DATA
  | WRITING
  | TESTING
  | MONITORING
  | COMMUNICATION
deriving DecidableEq, Repr

/-- A registry tool descriptor (src/plugah/registry.py, Tool).  Tags and
descriptions are not consulted by the functions under verification and are
elided. -/
structure Tool where
  id : String
  category : ToolCategory
  cost_tier : Nat := 1
deriving DecidableEq, Repr

/-- TOOL_REGISTRY: the six static tools with their cost tiers. -/
def TOOL_REGISTRY : List (String × Tool) :=
  [ ("web_search", { id := "web_search", category := .RESEARCH, cost_tier := 2 }),
    ("code_reader", { id := "code_reader", category := .CODE, cost_tier := 1 }),
    ("code_chunker", { id := "code_chunker", category := .CODE, cost_tier := 1 }),
    ("data_tool", { id := "data_tool", category := .DATA, cost_tier := 2 }),
    ("writer", { id := "writer", category := .WRITING, cost_tier := 1 }),
    ("qa_tool", { id := "qa_tool", category := .TESTING, cost_tier := 2 }) ]

/-- The per-tier cost map with its dict.get default of 0.01 (the literal
dict cost_map = 1: 0.01, 2: 0.05, 3: 0.10 inside estimate_tool_cost). -/
def costMapGet (tier : Nat) : ℚ :=
  if tier = 1 then 1 / 100
  else if tier = 2 then 5 / 100
  else if tier = 3 then 10 / 100
  else 1 / 100

/-- ToolSelector.estimate_tool_cost: a tool id missing from TOOL_REGISTRY is
skipped by the if-tool guard and contributes nothing. -/
def ToolSelector.estimate_tool_cost (tool_ids : List String) : ℚ :=
  tool_ids.foldl
    (fun total tool_id =>
      match TOOL_REGISTRY.lookup tool_id with
      | some tool => total + costMapGet tool.cost_tier
      | none => total)
    0

/-- The cost the claim asserts: per-tier cost for known tools and a default
contribution of 0.01 for each unknown tool id. -/
def estimateToolCostClaimed (tool_ids : List String) : ℚ :=
  (tool_ids.map fun tool_id =>
    match TOOL_REGISTRY.lookup tool_id with
    | some tool => costMapGet tool.cost_tier
    | none => 1 / 100).sum

/-- What the code actually charges per tool id: unknown ids contribute 0. -/
def estimateToolCostActual (tool_ids : List String) : ℚ :=
  (tool_ids.map fun tool_id =>
    match TOOL_REGISTRY.lookup tool_id with
    | some tool => costMapGet tool.cost_tier
    | none => 0).sum

/-! ## Executor and WaveExecutor (src/plugah/executor.py)

The executor runs on an event loop; the per-task try-block (mock sleep or
the external crew call) is the only place an execution outcome is produced,
so it is modelled as a body function returning either an output/cost pair
or the text of a raised exception.  asyncio.gather of the per-task
coroutines is modelled as awaiting them in submission order, which is the
cooperative schedule the single-await task bodies actually produce. -/

/-- The output dict a task body produces (result text plus artifact map). -/
structure TaskOutput where
  result : String
  artifacts : List (String × String)
deriving DecidableEq, Repr

/-- executor.ExecutionResult (duration elided: wall-clock time is not
modelled). -/
structure ExecResult where
  task_id : String
  status : TaskStatus
  output : Option TaskOutput := none
  error : Option String := none
  cost : ℚ := 0
deriving DecidableEq, Repr

/-- The mutable state an Executor threads through a run: the OAG (task
statuses, artifacts, actual costs), the budget manager, and the results
map. -/
structure ExecState where
  oag : OAG
  bm : BudgetManager
  results : List (String × ExecResult) := []
deriving DecidableEq, Repr

/-- Whether an id names a task node of the OAG; the materializer produces
one crew task per TaskSpec, so membership in the materialized tasks dict is
exactly this. -/
def isTaskOf (oag : OAG) (node_id : String) : Bool :=
  match oag.get_node node_id with
  | some (.task _) => true
  | _ => false

/-- The OAG status of a task node, if the id names one. -/
def taskStatusOf (oag : OAG) (node_id : String) : Option TaskStatus :=
  match oag.get_node node_id with
  | some (.task ts) => some ts.status
  | _ => none

/-- The artifacts recorded on a task node, if the id names one. -/
def taskArtifactsOf (oag : OAG) (node_id : String) : Option (List (String × String)) :=
  match oag.get_node node_id with
  | some (.task ts) => some ts.artifacts
  | _ => none

/-- The actual cost recorded on a task node, if the id names one. -/
def taskActualCostOf (oag : OAG) (node_id : String) : Option ℚ :=
  match oag.get_node node_id with
  | some (.task ts) => some ts.cost.actual_cost_usd
  | _ => none

/-- All task ids of the OAG in nodes-map order. -/
def taskIds (oag : OAG) : List String :=
  (oag.get_tasks).map Prod.fst

/-- Predecessors of a task in the execution graph built by
Executor._build_execution_graph: from_ids of the OAG edges whose endpoints
are both task nodes and whose to_id is the given task. -/
def graphPreds (oag : OAG) (task_id : String) : List String :=
  oag.edges.filterMap fun e =>
    if e.to_id = task_id ∧ isTaskOf oag e.from_id ∧ isTaskOf oag e.to_id then
      some e.from_id
    else none

/-- Applying a mutation to the task spec stored under the given key
(status/artifact/cost assignments in the source mutate the mapped object
fetched by id). -/
def mapTask (task_id : String) (g : TaskSpec → TaskSpec) :
    List (String × Node) → List (String × Node) :=
  List.map fun p =>
    match p with
    | (k, .task ts) => if k = task_id then (k, .task (g ts)) else p
    | _ => p

/-- Mutate the status of the task node fetched under the given key. -/
def OAG.setTaskStatus (oag : OAG) (task_id : String) (st : TaskStatus) : OAG :=
  { oag with nodes := mapTask task_id (fun ts => { ts with status := st }) oag.nodes }

/-- The three mutations on a successfully completed task: status DONE,
artifacts stored, actual cost recorded. -/
def doneUpdate (artifacts : List (String × String)) (cost : ℚ)
    (ts : TaskSpec) : TaskSpec :=
  { ts with status := .DONE, artifacts := artifacts,
            cost := { ts.cost with actual_cost_usd := cost } }

/-- Apply the completion mutations to the task fetched under the key. -/
def OAG.setTaskDone (oag : OAG) (task_id : String)
    (artifacts : List (String × String)) (cost : ℚ) : OAG :=
  { oag with nodes := mapTask task_id (doneUpdate artifacts cost) oag.nodes }

/-- Events a run emits, labelled with what the claims need: a started event
records whether every predecessor task bore DONE status in the OAG at the
moment the task transitioned to RUNNING. -/
inductive TraceEv where
  | run_blocked
  | budget_blocked (task_id : String)
  | started (task_id : String) (preds_done : Bool)
  | budget_warning (task_id : String)
  | completed (task_id : String) (cost : ℚ)
  | task_failed (task_id : String) (error : String)
deriving DecidableEq, Repr

/-- Whether every execution-graph predecessor of the task currently bears
DONE status in the OAG. -/
def predsDone (s : ExecState) (task_id : String) : Bool :=
  (graphPreds s.oag task_id).all fun p =>
    decide (taskStatusOf s.oag p = some .DONE)

/-- Executor._dependencies_satisfied: an id outside the execution graph
passes; otherwise every predecessor must carry a DONE entry in the results
map. -/
def ExecState.dependencies_satisfied (s : ExecState) (task_id : String) : Bool :=
  if ¬ isTaskOf s.oag task_id then true
  else
    (graphPreds s.oag task_id).all fun p =>
      match s.results.lookup p with
      | some r => decide (r.status = .DONE)
      | none => false

/-- The outcome of the per-task try-block body: the produced output and the
cost charged for it, or the text of a raised exception. -/
def ExecBody : Type := TaskSpec → Except String (TaskOutput × ℚ)

/-- The simulated (non-crew) execution path: a canned completion string,
one sample artifact, and a cost of exactly the estimate. -/
def mockBody : ExecBody := fun ts =>
  .ok ({ result := "Completed " ++ ts.description, artifacts := [("data", "sample")] },
       ts.cost.est_cost_usd)

/-- The SKIPPED result recorded by the sequential walk for a task whose
dependencies are not satisfied. -/
def skippedResult (task_id : String) : ExecResult :=
  { task_id := task_id, status := .SKIPPED, error := some "Dependencies not satisfied" }

/-- Executor._execute_task.  Non-task ids return immediately; a budget
block records a FAILED result without touching the task status; otherwise
the task transitions to RUNNING (a start event fires) and the body outcome
decides between the DONE and FAILED paths.  On success the spend is
recorded against the budget manager with its boolean result ignored, as in
the source. -/
def execute_task (body : ExecBody) (s : ExecState) (task_id : String) :
    ExecState × List TraceEv :=
  match s.oag.get_node task_id with
  | some (.task ts) =>
    if ¬ s.bm.can_proceed then
      ({ s with
         results := dictUpd s.results task_id
           { task_id := task_id, status := .FAILED, error := some "Budget exceeded" } },
       [.budget_blocked task_id])
    else
      let startEv := TraceEv.started task_id (predsDone s task_id)
      let s1 : ExecState := { s with oag := s.oag.setTaskStatus task_id .RUNNING }
      match body ts with
      | .ok (output, cost) =>
        let bm1 := (s1.bm.record_spend cost).2
        let warnEvs := if bm1.is_near_soft_cap then [TraceEv.budget_warning task_id] else []
        let s2 : ExecState :=
          { oag := s1.oag.setTaskDone task_id output.artifacts cost,
            bm := bm1,
            results := dictUpd s1.results task_id
              { task_id := task_id, status := .DONE, output := some output, cost := cost } }
        (s2, [startEv] ++ warnEvs ++ [.completed task_id cost])
      | .error e =>
        let s2 : ExecState :=
          { s1 with
            oag := s1.oag.setTaskStatus task_id .FAILED,
            results := dictUpd s1.results task_id
              { task_id := task_id, status := .FAILED, error := some e } }
        (s2, [startEv, .task_failed task_id e])
  | _ => (s, [])

/-- One iteration of the sequential walk: skip ids that did not materialize
as tasks, record a SKIPPED result when dependencies are unsatisfied, and
execute otherwise. -/
def seqVisit (body : ExecBody) (s : ExecState) (task_id : String) :
    ExecState × List TraceEv :=
  if ¬ isTaskOf s.oag task_id then (s, [])
  else if ¬ s.dependencies_satisfied task_id then
    ({ s with results := dictUpd s.results task_id (skippedResult task_id) }, [])
  else
    execute_task body s task_id

/-- Executor._execute_sequential over a given task order.  The order stands
for the list the third-party topological sort produces (or the raw task-id
list on its fallback path); the theorems below quantify over every order. -/
def execute_sequential (body : ExecBody) : ExecState → List String →
    ExecState × List TraceEv
  | s, [] => (s, [])
  | s, t :: rest =>
    let step := seqVisit body s t
    let next := execute_sequential body step.1 rest
    (next.1, step.2 ++ next.2)

/-- Execute a list of task ids one after another (the gathered coroutines
of one parallel frontier or one wave, awaited in submission order). -/
def execList (body : ExecBody) : ExecState → List String →
    ExecState × List TraceEv
  | s, [] => (s, [])
  | s, t :: rest =>
    let step := execute_task body s t
    let next := execList body step.1 rest
    (next.1, step.2 ++ next.2)

/-- Executor._execute_parallel: repeatedly execute the ready frontier until
nothing remains or nothing further becomes ready.  The fuel argument bounds
the iteration count; each productive round removes the nonempty frontier
from the remaining set, so the number of remaining tasks suffices. -/
def execute_parallel_go (body : ExecBody) : Nat → ExecState → List String →
    ExecState × List TraceEv
  | 0, s, _ => (s, [])
  | fuel + 1, s, remaining =>
    let ready := remaining.filter fun t => s.dependencies_satisfied t
    if ready.isEmpty then (s, [])
    else
      let step := execList body s ready
      let remaining1 := remaining.filter fun t => decide (t ∉ ready)
      let next := execute_parallel_go body fuel step.1 remaining1
      (next.1, step.2 ++ next.2)

/-- Executor._execute_parallel entry point. -/
def execute_parallel (body : ExecBody) (s : ExecState) : ExecState × List TraceEv :=
  execute_parallel_go body (taskIds s.oag).length s (taskIds s.oag)

/-- Executor.execute: initial budget gate, then the parallel or sequential
strategy. -/
def Executor.execute (body : ExecBody) (s : ExecState) (parallel : Bool)
    (task_order : List String) : ExecState × List TraceEv :=
  if ¬ s.bm.can_proceed then (s, [.run_blocked])
  else if parallel then execute_parallel body s
  else execute_sequential body s task_order

/-- WaveExecutor._calculate_waves: peel off the nodes with no unresolved
predecessor remaining; a residue in which every node still has one (a
cycle) becomes a single catch-all wave. -/
def calc_waves_go (oag : OAG) : Nat → List String → List (List String)
  | 0, _ => []
  | fuel + 1, remaining =>
    if remaining.isEmpty then []
    else
      let wave0 := remaining.filter fun n =>
        (graphPreds oag n).all fun p => decide (p ∉ remaining)
      let wave := if wave0.isEmpty then remaining else wave0
      wave :: calc_waves_go oag fuel (remaining.filter fun t => decide (t ∉ wave))

/-- WaveExecutor._calculate_waves entry point. -/
def calculate_waves (oag : OAG) : List (List String) :=
  calc_waves_go oag (taskIds oag).length (taskIds oag)

/-- WaveExecutor.execute over precomputed waves: run each wave, stopping
early when the budget can no longer proceed after a wave.  No dependency or
completion state is re-checked before a wave's tasks run. -/
def wave_exec_waves (body : ExecBody) : ExecState → List (List String) →
    ExecState × List TraceEv
  | s, [] => (s, [])
  | s, wave :: rest =>
    let step := execList body s wave
    if ¬ step.1.bm.can_proceed then (step.1, step.2)
    else
      let next := wave_exec_waves body step.1 rest
      (next.1, step.2 ++ next.2)

/-- WaveExecutor.execute. -/
def WaveExecutor.execute (body : ExecBody) (s : ExecState) :
    ExecState × List TraceEv :=
  wave_exec_waves body s (calculate_waves s.oag)

/-- A fresh executor state over an OAG (Executor.__init__ with the default
budget manager). -/
def ExecState.init (oag : OAG) : ExecState :=
  { oag := oag, bm := BudgetManager.init oag.budget }

/-- The link between the results map and the OAG statuses that the
dependency check relies on: every DONE entry in results belongs to a task
whose OAG status is DONE.  It holds of a fresh run (empty results) and is
preserved by every executor step. -/
def ResultsDoneInv (s : ExecState) : Prop :=
  ∀ p r, s.results.lookup p = some r → r.status = .DONE →
    taskStatusOf s.oag p = some .DONE

/-! ## Python string helpers

The planner builds agent ids with str.lower, str.replace of a single
character, str.split on one character and f-string interpolation; these are
reimplemented on character lists so that every id computation reduces in
the kernel. -/

/-- Python str.lower (ASCII, which is all the planner feeds it). -/
def pyLower (s : String) : String :=
  String.mk (s.toList.map Char.toLower)

/-- Python str.upper (ASCII). -/
def pyUpper (s : String) : String :=
  String.mk (s.toList.map Char.toUpper)

/-- Python str.replace with single-character pattern and replacement. -/
def pyReplaceChar (s : String) (a b : Char) : String :=
  String.mk (s.toList.map fun c => if c = a then b else c)

/-- Splitting a character list on a separator character, preserving empty
pieces, exactly as Python str.split with an explicit separator does. -/
def pySplitGo (sep : Char) : List Char → List Char → List String
  | acc, [] => [String.mk acc.reverse]
  | acc, c :: cs =>
    if c = sep then String.mk acc.reverse :: pySplitGo sep [] cs
    else pySplitGo sep (c :: acc) cs

/-- Python str.split on one separator character. -/
def pySplit (s : String) (sep : Char) : List String :=
  pySplitGo sep [] s.toList

/-- Python list[-1] (never used on an empty list by the embedded code). -/
def pyLast (xs : List String) : String :=
  xs.getLastD ""

/-- Python list[-2]. -/
def pyLast2 (xs : List String) : String :=
  match xs.reverse with
  | _ :: y :: _ => y
  | _ => ""

/-- Python substring membership: needle in hay. -/
def strContains (hay needle : String) : Bool :=
  decide (needle.toList <:+: hay.toList)

/-- Seen-set loop of the de-duplication pass in ToolSelector.select_tools. -/
def pyDedupGo (seen : List String) : List String → List String
  | [] => []
  | x :: xs =>
    if x ∈ seen then pyDedupGo seen xs else x :: pyDedupGo (x :: seen) xs

/-- De-duplication preserving first-occurrence order. -/
def pyDedup (xs : List String) : List String :=
  pyDedupGo [] xs

/-! ## Role preferences, model tiers and tool selection
(src/plugah/registry.py) -/

/-- src/plugah/registry.py, RolePreferences. -/
structure RolePreferences where
  role : String
  preferred_tools : List String
  required_tools : List String
  excluded_tools : List String
deriving DecidableEq, Repr

/-- ROLE_PREFERENCES: the ten static role-preference records. -/
def ROLE_PREFERENCES : List (String × RolePreferences) :=
  [ ("CEO", { role := "CEO", preferred_tools := ["web_search", "writer"],
              required_tools := [], excluded_tools := ["code_chunker"] }),
    ("CTO", { role := "CTO", preferred_tools := ["code_reader", "qa_tool"],
              required_tools := [], excluded_tools := [] }),
    ("CFO", { role := "CFO", preferred_tools := ["data_tool"],
              required_tools := [], excluded_tools := ["code_reader", "code_chunker"] }),
    ("VP_ENG", { role := "VP Engineering",
                 preferred_tools := ["code_reader", "code_chunker", "qa_tool"],
                 required_tools := ["code_reader"], excluded_tools := [] }),
    ("VP_PRODUCT", { role := "VP Product",
                     preferred_tools := ["web_search", "writer", "data_tool"],
                     required_tools := ["writer"], excluded_tools := ["code_chunker"] }),
    ("VP_DATA", { role := "VP Data", preferred_tools := ["data_tool", "code_reader"],
                  required_tools := ["data_tool"], excluded_tools := [] }),
    ("DIRECTOR_PM", { role := "Director PM", preferred_tools := ["writer", "web_search"],
                      required_tools := [], excluded_tools := ["code_chunker"] }),
    ("SWE", { role := "Software Engineer",
              preferred_tools := ["code_reader", "code_chunker", "qa_tool"],
              required_tools := ["code_reader"], excluded_tools := [] }),
    ("DATA_SCIENTIST", { role := "Data Scientist",
                         preferred_tools := ["data_tool", "code_reader"],
                         required_tools := ["data_tool"], excluded_tools := [] }),
    ("QA_ENGINEER", { role := "QA Engineer", preferred_tools := ["qa_tool", "code_reader"],
                      required_tools := ["qa_tool"], excluded_tools := [] }) ]

/-- The model name of a MODEL_TIERS entry (economy and standard share an
underlying model id in the source). -/
def modelTierName (tier : String) : String :=
  if tier = "premium" then "gpt-4-turbo"
  else if tier = "standard" then "gpt-3.5-turbo"
  else if tier = "economy" then "gpt-3.5-turbo"
  else ""

/-- ToolSelector.select_tools. -/
def ToolSelector.select_tools (role : String) (budget_policy : String)
    (available_budget : ℚ) : List String :=
  match ROLE_PREFERENCES.lookup (pyReplaceChar (pyUpper role) ' ' '_') with
  | none => ["web_search", "writer"]
  | some prefs =>
    let fromPolicy :=
      if budget_policy = "aggressive" then prefs.preferred_tools
      else if budget_policy = "balanced" then
        prefs.preferred_tools.filter fun tool_id =>
          match TOOL_REGISTRY.lookup tool_id with
          | some tool => decide (available_budget > 10 ∨ tool.cost_tier ≤ 2)
          | none => false
      else
        (prefs.preferred_tools.take 2).filter fun tool_id =>
          match TOOL_REGISTRY.lookup tool_id with
          | some tool => decide (tool.cost_tier = 1)
          | none => false
    let selected := (prefs.required_tools ++ fromPolicy).filter fun t =>
      decide (t ∉ prefs.excluded_tools)
    pyDedup selected

/-- ToolSelector.select_model. -/
def ToolSelector.select_model (role_level : String) (budget_policy : String) : String :=
  if budget_policy = "conservative" then modelTierName "economy"
  else if budget_policy = "aggressive" then modelTierName "premium"
  else if role_level = "C_SUITE" ∨ role_level = "VP" then modelTierName "premium"
  else if role_level = "DIRECTOR" ∨ role_level = "MANAGER" then modelTierName "standard"
  else modelTierName "economy"

/-- The domain-to-role-keyword specialization table of
get_specialization_for_domain. -/
def domainSpecializations : List (String × List (String × String)) :=
  [ ("web", [("Engineer", "Frontend Engineer"), ("Manager", "Product Manager"),
             ("Director", "Director of Engineering")]),
    ("data", [("Engineer", "Data Engineer"), ("Scientist", "Data Scientist"),
              ("Manager", "Data Manager")]),
    ("api", [("Engineer", "Backend Engineer"), ("Architect", "Tech Architect"),
             ("Manager", "Engineering Manager")]),
    ("mobile", [("Engineer", "Mobile Engineer"), ("Designer", "UX Designer"),
                ("Manager", "Product Manager")]) ]

/-- registry.get_specialization_for_domain. -/
def get_specialization_for_domain (domain : String) (role : String) : Option String :=
  let domain_map := (domainSpecializations.lookup (pyLower domain)).getD []
  (domain_map.find? fun p => strContains (pyLower role) (pyLower p.1)).map Prod.snd

/-! ## Selector (src/plugah/selector.py)

The Selector instance holds a budget-policy string; it is threaded as the
first argument of each function here.  Prompt composition delegates to the
template engine, whose rendered text no claim inspects; it enters the
embedding as an opaque promptFn parameter of the planner. -/

/-- The string value of a RoleLevel (the Python enum value). -/
def RoleLevel.value : RoleLevel → String
  | .C_SUITE => "C_SUITE"
  | .VP => "VP"
  | .DIRECTOR => "DIRECTOR"
  | .MANAGER => "MANAGER"
  | .IC => "IC"
  | .EXTERNAL => "EXTERNAL"

/-- The role-keyword fallback table inside Selector.select_specialization. -/
def roleSpecializationTable : List (String × String) :=
  [ ("Engineer", "Software Engineer"), ("Manager", "Engineering Manager"),
    ("Analyst", "Product Analyst"), ("Designer", "UX Designer"),
    ("Architect", "Tech Architect"), ("Lead", "Tech Lead") ]

/-- Selector.select_specialization. -/
def Selector.select_specialization (role : String) (domain : Option String) :
    Option String :=
  let domSpec :=
    match domain with
    | some d => get_specialization_for_domain d role
    | none => none
  match domSpec with
  | some s => some s
  | none =>
    (roleSpecializationTable.find? fun p =>
      strContains (pyLower role) (pyLower p.1)).map Prod.snd

/-- Selector.select_tools: look up by specialization when set (the Python
or-expression; the specializations produced here are never the empty
string), select ids, and wrap registry-known ids as ToolRefs. -/
def Selector.select_tools (budget_policy : String) (role : String)
    (specialization : Option String) (available_budget : ℚ) : List ToolRef :=
  let lookup_role := specialization.getD role
  (ToolSelector.select_tools lookup_role budget_policy available_budget).filterMap
    fun tool_id =>
      if (TOOL_REGISTRY.lookup tool_id).isSome then some { id := tool_id } else none

/-- Selector.select_model. -/
def Selector.select_model (budget_policy : String) (role_level : RoleLevel) : String :=
  ToolSelector.select_model role_level.value budget_policy

/-- Staffing counts returned by Selector.determine_staffing_level. -/
structure Staffing where
  vps : Nat
  directors : Nat
  managers : Nat
  ics : Nat
deriving DecidableEq, Repr

/-- Selector.determine_staffing_level: fixed under the conservative and
aggressive policies, budget-tiered under balanced. -/
def Selector.determine_staffing_level (budget_policy : String)
    (budget : ℚ) : Staffing :=
  if budget_policy = "conservative" then
    { vps := 1, directors := 1, managers := 1, ics := 2 }
  else if budget_policy = "aggressive" then
    { vps := 3, directors := 4, managers := 6, ics := 12 }
  else if budget < 50 then
    { vps := 1, directors := 2, managers := 2, ics := 4 }
  else if budget < 200 then
    { vps := 2, directors := 3, managers := 4, ics := 8 }
  else
    { vps := 3, directors := 4, managers := 5, ics := 10 }

/-- Selector.estimate_role_cost. -/
def Selector.estimate_role_cost (budget_policy : String) (role_level : RoleLevel) : ℚ :=
  let base_cost : ℚ :=
    match role_level with
    | .C_SUITE => 1
    | .VP => 1 / 2
    | .DIRECTOR => 3 / 10
    | .MANAGER => 1 / 5
    | .IC => 1 / 10
    | .EXTERNAL => 3 / 20
  if budget_policy = "conservative" then base_cost * (7 / 10)
  else if budget_policy = "aggressive" then base_cost * (3 / 2)
  else base_cost

/-! ## Organization planner (src/plugah/planner.py) -/

/-- One objective record of a PRD dict. -/
structure PRDObjective where
  id : String
  title : String
  description : String
deriving DecidableEq, Repr

/-- The PRD fields Planner.plan reads, with the dict.get defaults already
applied. -/
structure PRDDoc where
  title : String := "Project"
  domain : String := "general"
  objectives : List PRDObjective := []
  success_criteria : List String := []
deriving DecidableEq, Repr

/-- A prompt composer with the shape of Selector.compose_system_prompt as
the planner uses it; the rendered text is irrelevant to every claim, so the
theorems below hold for every such function. -/
def PromptFn : Type := String → RoleLevel → String

/-- Planner._determine_budget_policy. -/
def Planner.determine_budget_policy (budget : ℚ) (num_objectives : Nat) :
    BudgetPolicy :=
  if budget < 20 ∨ num_objectives > 5 then .CONSERVATIVE
  else if budget > 100 ∧ num_objectives ≤ 3 then .AGGRESSIVE
  else .BALANCED

/-- Planner._estimate_scope_size. -/
def Planner.estimate_scope_size (objectives : List PRDObjective) : String :=
  if objectives.length ≤ 2 then "small"
  else if objectives.length ≤ 5 then "medium"
  else "large"

/-- Planner._create_okrs_for_role. -/
def Planner.create_okrs_for_role (role : String) (objectives : List PRDObjective) :
    List OKR :=
  if role = "CEO" ∧ ¬ objectives.isEmpty then
    [ { objective := { id := "obj_user_value", title := "Deliver User Value",
                       description := "Ensure project delivers value to users",
                       owner_agent_id := "agent_ceo" },
        key_results :=
          [ { id := "kr_completion", objective_id := "obj_user_value",
              metric := "Project Completion", target := 100, direction := .GTE },
            { id := "kr_quality", objective_id := "obj_user_value",
              metric := "Quality Score", target := 90, direction := .GTE } ] } ]
  else if role = "CTO" then
    [ { objective := { id := "obj_tech_excellence", title := "Technical Excellence",
                       description := "Ensure technical quality and architecture",
                       owner_agent_id := "agent_cto" },
        key_results :=
          [ { id := "kr_architecture", objective_id := "obj_tech_excellence",
              metric := "Architecture Score", target := 95, direction := .GTE } ] } ]
  else
    []

/-- Planner._create_board_room: the CEO, CTO and CFO agents. -/
def Planner.create_board_room (policy : String) (promptFn : PromptFn) (oag : OAG)
    (objectives : List PRDObjective) : OAG :=
  let hard := oag.budget.caps.hard_cap_usd
  let soft := oag.budget.caps.soft_cap_usd
  let ceo : AgentSpec :=
    { id := "agent_ceo", role := "CEO", level := .C_SUITE,
      system_prompt := promptFn "CEO" .C_SUITE,
      tools := Selector.select_tools policy "CEO" none hard,
      llm := some (Selector.select_model policy .C_SUITE),
      okrs := Planner.create_okrs_for_role "CEO" objectives }
  let cto : AgentSpec :=
    { id := "agent_cto", role := "CTO", level := .C_SUITE,
      system_prompt := promptFn "CTO" .C_SUITE,
      tools := Selector.select_tools policy "CTO" none hard,
      llm := some (Selector.select_model policy .C_SUITE),
      okrs := Planner.create_okrs_for_role "CTO" objectives }
  let cfo_kpis : List KPI :=
    [ { id := "kpi_burn_rate", metric := "Burn Rate", target := soft / 10,
        direction := .LTE, owner_agent_id := "agent_cfo" },
      { id := "kpi_cost_efficiency", metric := "Cost per Deliverable",
        target := hard / max objectives.length 1,
        direction := .LTE, owner_agent_id := "agent_cfo" } ]
  let cfo : AgentSpec :=
    { id := "agent_cfo", role := "CFO", level := .C_SUITE,
      system_prompt := promptFn "CFO" .C_SUITE,
      tools := Selector.select_tools policy "CFO" none hard,
      llm := some (Selector.select_model policy .C_SUITE),
      kpis := cfo_kpis }
  ((oag.add_node (.agent ceo)).add_node (.agent cto)).add_node (.agent cfo)

/-- Planner._create_vps. -/
def Planner.create_vps (policy : String) (promptFn : PromptFn) (oag : OAG)
    (domain : String) (count : Nat) : OAG × List String :=
  let vp_roles := (["VP Engineering", "VP Product", "VP Data"]).take count
  vp_roles.foldl
    (fun acc role =>
      let vp_id := "agent_vp_" ++ pyReplaceChar (pyLower role) ' ' '_'
      let vp : AgentSpec :=
        { id := vp_id, role := role, level := .VP, manager_id := some "agent_ceo",
          specialization := Selector.select_specialization role (some domain),
          system_prompt := promptFn role .VP,
          tools := Selector.select_tools policy role none
            (acc.1.budget.caps.hard_cap_usd * (3 / 10)),
          llm := some (Selector.select_model policy .VP) }
      (acc.1.add_node (.agent vp), acc.2 ++ [vp_id]))
    (oag, [])

/-- Planner._create_directors: distributed evenly across VPs with a floor
of one per VP. -/
def Planner.create_directors (policy : String) (promptFn : PromptFn) (oag : OAG)
    (vp_ids : List String) (count : Nat) : OAG × List String :=
  let directors_per_vp := max 1 (count / max vp_ids.length 1)
  vp_ids.foldl
    (fun acc vp_id =>
      (List.range directors_per_vp).foldl
        (fun acc2 i =>
          let dir_id := "agent_dir_" ++ pyLast (pySplit vp_id '_') ++ "_" ++ toString i
          let director : AgentSpec :=
            { id := dir_id, role := "Director " ++ toString (i + 1), level := .DIRECTOR,
              manager_id := some vp_id,
              system_prompt := promptFn "Director" .DIRECTOR,
              tools := Selector.select_tools policy "Director" none
                (acc2.1.budget.caps.hard_cap_usd * (1 / 10)),
              llm := some (Selector.select_model policy .DIRECTOR) }
          (acc2.1.add_node (.agent director), acc2.2 ++ [dir_id]))
        acc)
    (oag, [])

/-- Planner._create_managers. -/
def Planner.create_managers (policy : String) (promptFn : PromptFn) (oag : OAG)
    (director_ids : List String) (count : Nat) : OAG × List String :=
  let managers_per_director := max 1 (count / max director_ids.length 1)
  director_ids.foldl
    (fun acc dir_id =>
      (List.range managers_per_director).foldl
        (fun acc2 i =>
          let parts := pySplit dir_id '_'
          let mgr_id := "agent_mgr_" ++ pyLast2 parts ++ "_" ++ pyLast parts ++ "_" ++
            toString i
          let manager : AgentSpec :=
            { id := mgr_id, role := "Manager " ++ toString (i + 1), level := .MANAGER,
              manager_id := some dir_id,
              system_prompt := promptFn "Manager" .MANAGER,
              tools := Selector.select_tools policy "Manager" none
                (acc2.1.budget.caps.hard_cap_usd * (1 / 20)),
              llm := some (Selector.select_model policy .MANAGER) }
          (acc2.1.add_node (.agent manager), acc2.2 ++ [mgr_id]))
        acc)
    (oag, [])

/-- Planner._create_ics: cycles through the fixed role pool. -/
def Planner.create_ics (policy : String) (promptFn : PromptFn) (oag : OAG)
    (domain : String) (manager_ids : List String) (count : Nat) : OAG × List String :=
  let ics_per_manager := max 1 (count / max manager_ids.length 1)
  let ic_roles := ["Engineer", "Analyst", "Designer", "QA"]
  manager_ids.foldl
    (fun acc mgr_id =>
      (List.range ics_per_manager).foldl
        (fun acc2 i =>
          let role := ic_roles.getD (i % ic_roles.length) "Engineer"
          let ic_id := "agent_ic_" ++ pyLast (pySplit mgr_id '_') ++ "_" ++
            pyLower role ++ "_" ++ toString i
          let specialization := Selector.select_specialization role (some domain)
          let ic : AgentSpec :=
            { id := ic_id, role := role, level := .IC, manager_id := some mgr_id,
              specialization := specialization,
              system_prompt := promptFn role .IC,
              tools := Selector.select_tools policy role specialization
                (acc2.1.budget.caps.hard_cap_usd * (1 / 50)),
              llm := some (Selector.select_model policy .IC) }
          (acc2.1.add_node (.agent ic), acc2.2 ++ [ic_id]))
        acc)
    (oag, [])

/-- The six standard tasks the planner always creates. -/
def standardTasks : List (String × String × String) :=
  [ ("Architecture Design", "Design system architecture", "architecture_doc"),
    ("Data Sourcing", "Identify and prepare data sources", "data_sources"),
    ("MVP Implementation", "Build minimum viable product", "mvp_code"),
    ("Testing", "Test and validate implementation", "test_results"),
    ("Documentation", "Create user and technical documentation", "documentation"),
    ("Deployment", "Deploy to production", "deployment_status") ]

/-- Planner._create_tasks. -/
def Planner.create_tasks (policy : String) (oag : OAG) (ic_ids : List String) :
    OAG × List String :=
  (standardTasks.enum.foldl
    (fun acc entry =>
      let i := entry.1
      let task_name := entry.2.1
      let description := entry.2.2.1
      let output := entry.2.2.2
      let task_id := "task_" ++ pyReplaceChar (pyLower task_name) ' ' '_'
      let agent_id :=
        if ic_ids.isEmpty then "agent_ic_0_engineer_0"
        else ic_ids.getD (i % ic_ids.length) "agent_ic_0_engineer_0"
      let contract : Contract :=
        { inputs := [{ name := "requirements", dtype := "string",
                       description := "Project requirements", required := true }],
          outputs := [{ name := output, dtype := "string",
                        description := task_name ++ " output", required := true }],
          definition_of_done := task_name ++ " completed and validated" }
      let task : TaskSpec :=
        { id := task_id, description := description, agent_id := agent_id,
          contract := contract,
          expected_output := "Completed " ++ pyLower task_name,
          status := .PLANNED,
          cost := { est_cost_usd := Selector.estimate_role_cost policy .IC } }
      (acc.1.add_node (.task task), acc.2 ++ [task_id]))
    (oag, []))

/-- Planner._create_task_dependencies: one edge per consecutive task pair. -/
def Planner.create_task_dependencies (oag : OAG) (task_ids : List String) : OAG :=
  ((List.range (task_ids.length - 1)).foldl
    (fun acc i =>
      acc.add_edge
        { id := "edge_" ++ toString i,
          from_id := task_ids.getD i "",
          to_id := task_ids.getD (i + 1) "",
          mapping := [("output", "input")] })
    oag)

/-- Planner._forecast_cost. -/
def Planner.forecast_cost (policy : String) (oag : OAG) : ℚ :=
  ((oag.get_agents).foldl
    (fun acc p => acc + Selector.estimate_role_cost policy p.2.level * 10) 0) +
  ((oag.get_tasks).foldl (fun acc p => acc + p.2.cost.est_cost_usd) 0)

/-- Planner.plan: the complete OAG construction.  The project id stands for
the fresh uuid4 the source draws. -/
def Planner.plan (policy : String) (promptFn : PromptFn) (project_id : String)
    (prd : PRDDoc) (budget_usd : ℚ) : OAG :=
  let oag_policy := Planner.determine_budget_policy budget_usd prd.objectives.length
  let meta : OrgMeta :=
    { project_id := project_id, title := prd.title, domain := some prd.domain }
  let budget : BudgetModel :=
    { caps := { soft_cap_usd := budget_usd * (8 / 10), hard_cap_usd := budget_usd },
      policy := oag_policy, forecast_cost_usd := 0 }
  let oag0 : OAG := { meta := meta, budget := budget, nodes := [], edges := [] }
  let oag1 := Planner.create_board_room policy promptFn oag0 prd.objectives
  let staffing := Selector.determine_staffing_level policy budget_usd
  let vpsR := Planner.create_vps policy promptFn oag1 prd.domain staffing.vps
  let dirsR := Planner.create_directors policy promptFn vpsR.1 vpsR.2 staffing.directors
  let mgrsR := Planner.create_managers policy promptFn dirsR.1 dirsR.2 staffing.managers
  let icsR := Planner.create_ics policy promptFn mgrsR.1 prd.domain mgrsR.2 staffing.ics
  let tasksR := Planner.create_tasks policy icsR.1 icsR.2
  let oag2 := Planner.create_task_dependencies tasksR.1 tasksR.2
  { oag2 with
    budget := { oag2.budget with forecast_cost_usd := Planner.forecast_cost policy oag2 } }

/-- The number of agents in an OAG (len of get_agents). -/
def agentCount (oag : OAG) : Nat :=
  (oag.get_agents).length

/-! ## Orchestrator state persistence (src/plugah/orchestrator.py)

Only the BoardRoom fields that to_dict, from_dict, save_state and
load_state touch are modelled.  The PRD wrapper is opaque data (its dict is
held as-is); the JSON encoding save_state writes and load_state reads is
the identity on the structured fields concerned.  The audit logger and
patch manager are telemetry components with no bearing on what is
persisted or restored. -/

/-- The PRD dict held by the PRD wrapper (opaque key/value data). -/
def PRDData : Type := List (String × String)

instance : DecidableEq PRDData := by
  unfold PRDData; infer_instance

/-- The BoardRoom fields involved in persistence.  sstate is the _state
dict and events the serialized event list, both opaque here. -/
structure BoardRoom where
  project_id : String
  sstate : List (String × String) := []
  events : List String := []
  prd : Option PRDData := none
  oag : Option OAG := none
  budget_manager : Option BudgetManager := none
deriving DecidableEq

/-- A fresh BoardRoom (__init__): the project id stands for the fresh
uuid4 drawn when none is supplied; everything else starts empty. -/
def BoardRoom.mk0 (project_id : String) : BoardRoom :=
  { project_id := project_id }

/-- The budget sub-document to_dict writes (spent, remaining, alerts). -/
structure SavedBudget where
  spent : ℚ
  remaining : ℚ
  alerts : List AlertEntry
deriving DecidableEq

/-- The JSON document produced by BoardRoom.to_dict: project id, the state
map, the event list, then prd, oag and budget when present. -/
structure SavedState where
  project_id : String
  sstate : List (String × String)
  events : List String
  prd : Option PRDData
  oag : Option OAG
  budget : Option SavedBudget
deriving DecidableEq

/-- BoardRoom.to_dict. -/
def BoardRoom.to_dict (br : BoardRoom) : SavedState :=
  { project_id := br.project_id,
    sstate := br.sstate,
    events := br.events,
    prd := br.prd,
    oag := br.oag,
    budget := br.budget_manager.map fun bm =>
      { spent := bm.spent, remaining := bm.get_remaining, alerts := bm.alerts } }

/-- BoardRoom.load_state on an existing instance: restores the state map,
the PRD and the OAG (rebuilding a fresh budget manager over the restored
OAG budget), and touches nothing else; in particular neither the project
id nor the saved budget spent/alerts are read. -/
def BoardRoom.load_state (br : BoardRoom) (data : SavedState) : BoardRoom :=
  let br1 : BoardRoom := { br with sstate := data.sstate }
  let br2 : BoardRoom :=
    match data.prd with
    | some p => { br1 with prd := some p }
    | none => br1
  match data.oag with
  | some oag =>
    { br2 with oag := some oag, budget_manager := some (BudgetManager.init oag.budget) }
  | none => br2

/-- BoardRoom.from_dict: a fresh instance built from the saved project id,
with the saved state map, PRD and OAG restored as in load_state, and then
the saved spent and alerts written into the rebuilt budget manager when
both a budget document and a budget manager exist. -/
def BoardRoom.from_dict (data : SavedState) : BoardRoom :=
  let br0 : BoardRoom := { project_id := data.project_id, sstate := data.sstate }
  let br1 : BoardRoom :=
    match data.prd with
    | some p => { br0 with prd := some p }
    | none => br0
  let br2 : BoardRoom :=
    match data.oag with
    | some oag =>
      { br1 with oag := some oag, budget_manager := some (BudgetManager.init oag.budget) }
    | none => br1
  match data.budget, br2.budget_manager with
  | some b, some bm =>
    { br2 with budget_manager := some { bm with spent := b.spent, alerts := b.alerts } }
  | _, _ => br2

/-! ## Concrete fixtures for the counterexamples and witnesses -/

/-- A minimal task spec used by the execution fixtures. -/
def fixtureTask (id description : String) (est : ℚ) : TaskSpec :=
  { id := id, description := description, agent_id := "agent_ic",
    contract := { definition_of_done := "validated" },
    expected_output := "output",
    cost := { est_cost_usd := est } }

/-- A budget model with hard cap 100 and soft cap 80. -/
def budget100 : BudgetModel :=
  { caps := { hard_cap_usd := 100, soft_cap_usd := 80 } }

/-- A manager over budget100 with the given spent total. -/
def mgr100 (spent : ℚ) : BudgetManager :=
  { budget := budget100, spent := spent }

/-- Two tasks forming a dependency cycle (edges both ways); the wave
executor puts the whole cycle in one catch-all wave. -/
def cycleOAG : OAG :=
  { meta := { project_id := "cx", title := "Cycle" },
    budget := budget100,
    nodes := [("task_a", .task (fixtureTask "task_a" "A" 1)),
              ("task_b", .task (fixtureTask "task_b" "B" 1))],
    edges := [{ id := "e1", from_id := "task_a", to_id := "task_b" },
              { id := "e2", from_id := "task_b", to_id := "task_a" }] }

/-- Two tasks with one edge task_a to task_b. -/
def chainOAG : OAG :=
  { meta := { project_id := "ch", title := "Chain" },
    budget := budget100,
    nodes := [("task_a", .task (fixtureTask "task_a" "A" 1)),
              ("task_b", .task (fixtureTask "task_b" "B" 1))],
    edges := [{ id := "e1", from_id := "task_a", to_id := "task_b" }] }

/-- A body whose try-block raises for task_a and behaves like the mock
path otherwise. -/
def failABody : ExecBody := fun ts =>
  if ts.id = "task_a" then .error "boom" else mockBody ts

/-- A single task whose estimate exceeds the whole budget (hard cap 10,
estimate 20). -/
def overOAG : OAG :=
  { meta := { project_id := "ov", title := "Over" },
    budget := { caps := { hard_cap_usd := 10, soft_cap_usd := 8 } },
    nodes := [("task_big", .task (fixtureTask "task_big" "Big" 20))],
    edges := [] }

/-- A manager that has recorded a spend of 56 against budget100 (spent 56,
one WARNING alert in the log). -/
def bm56 : BudgetManager :=
  BudgetManager.spendAll (BudgetManager.init budget100) [56]

/-- A BoardRoom about to be saved: project id p1, a PRD, an OAG whose
budget reflects the recorded spend (the manager and the OAG share the
budget object in the source), and the manager bm56. -/
def savedBR : BoardRoom :=
  { project_id := "p1",
    sstate := [("problem", "Test")],
    prd := some [("title", "X")],
    oag := some { meta := { project_id := "p1", title := "Proj" },
                  budget := bm56.budget, nodes := [], edges := [] },
    budget_manager := some bm56 }

/-- A four-objective PRD used by the planner fixtures. -/
def balancedPRD : PRDDoc :=
  { title := "Proj", domain := "general",
    objectives := [⟨"o1", "t1", "d1"⟩, ⟨"o2", "t2", "d2"⟩,
                   ⟨"o3", "t3", "d3"⟩, ⟨"o4", "t4", "d4"⟩],
    success_criteria := ["works"] }

/-- A concrete prompt composer for the planner fixtures (the theorems do
not depend on the text). -/
def pfEmpty : PromptFn := fun _ _ => ""

/-! ## Helper lemmas: budget manager -/

/- The Batteries rational operations are irreducible by default; concrete
evaluations in the theorems below reduce them through their definitions. -/
attribute [local semireducible] Rat.add Rat.mul Rat.sub Rat.inv Rat.ofScientific

theorem check_alerts_preserves (m : BudgetManager) :
    m.check_alerts.spent = m.spent ∧ m.check_alerts.budget = m.budget ∧
    m.check_alerts.spend_history = m.spend_history := by
  by_cases h : m.get_alert_level = .NORMAL
  · simp [BudgetManager.check_alerts, h]
  · simp [BudgetManager.check_alerts, h, BudgetManager.add_alert]

theorem record_spend_reject (m : BudgetManager) (a : ℚ) (d : String)
    (h : m.spent + a > m.budget.caps.hard_cap_usd) :
    m.record_spend a d =
      (false, m.add_alert .EMERGENCY "Spend would exceed hard cap") := by
  unfold BudgetManager.record_spend
  rw [if_pos h]

theorem record_spend_accept (m : BudgetManager) (a : ℚ) (d : String)
    (h : ¬ m.spent + a > m.budget.caps.hard_cap_usd) :
    (m.record_spend a d).1 = true ∧
    (m.record_spend a d).2.spent = m.spent + a ∧
    (m.record_spend a d).2.budget.caps = m.budget.caps ∧
    (m.record_spend a d).2.budget.actual_cost_usd = m.spent + a ∧
    (m.record_spend a d).2.spend_history = m.spend_history ++
      [{ amount := a, description := d, total_spent := m.spent + a,
         remaining := m.budget.caps.hard_cap_usd - (m.spent + a) }] := by
  unfold BudgetManager.record_spend
  rw [if_neg h]
  simp only [BudgetManager.check_alerts]
  split
  · simp [BudgetManager.add_alert, BudgetManager.get_remaining]
  · simp [BudgetManager.get_remaining]

theorem record_spend_caps (m : BudgetManager) (a : ℚ) (d : String) :
    (m.record_spend a d).2.budget.caps = m.budget.caps := by
  by_cases h : m.spent + a > m.budget.caps.hard_cap_usd
  · rw [record_spend_reject m a d h]
    simp [BudgetManager.add_alert]
  · exact (record_spend_accept m a d h).2.2.1

theorem record_spend_le_cap (m : BudgetManager) (a : ℚ) (d : String)
    (h0 : m.spent ≤ m.budget.caps.hard_cap_usd) :
    (m.record_spend a d).2.spent ≤ m.budget.caps.hard_cap_usd := by
  by_cases h : m.spent + a > m.budget.caps.hard_cap_usd
  · rw [record_spend_reject m a d h]
    simpa [BudgetManager.add_alert] using h0
  · rw [(record_spend_accept m a d h).2.1]
    exact le_of_not_lt h

theorem spendAll_le_cap (amounts : List ℚ) (m : BudgetManager)
    (h0 : m.spent ≤ m.budget.caps.hard_cap_usd) :
    (m.spendAll amounts).spent ≤ (m.spendAll amounts).budget.caps.hard_cap_usd := by
  induction amounts generalizing m with
  | nil => exact h0
  | cons a rest ih =>
    have hcaps := record_spend_caps m a ""
    have hle := record_spend_le_cap m a "" h0
    have : (m.record_spend a "").2.spent ≤
        (m.record_spend a "").2.budget.caps.hard_cap_usd := by
      rw [hcaps]; exact hle
    simpa [BudgetManager.spendAll] using ih (m.record_spend a "").2 this

theorem spendAll_caps (amounts : List ℚ) (m : BudgetManager) :
    (m.spendAll amounts).budget.caps = m.budget.caps := by
  induction amounts generalizing m with
  | nil => rfl
  | cons a rest ih =>
    have := record_spend_caps m a ""
    simpa [BudgetManager.spendAll, this] using ih (m.record_spend a "").2

/-! ## Claim theorems: budget (C2, C3) -/

/-- C2: record_spend rejects a spend that would push the total past the
hard cap, returning false and mutating nothing except appending one
EMERGENCY alert; otherwise it returns true, adds the amount to spent,
mirrors the new total into budget.actual_cost_usd and appends one history
entry.  Consequently, from a fresh manager and non-negative amounts, spent
never exceeds a non-negative hard cap. -/
theorem record_spend_spec :
    (∀ (m : BudgetManager) (a : ℚ) (d : String),
      (m.spent + a > m.budget.caps.hard_cap_usd →
        (m.record_spend a d).1 = false ∧
        (m.record_spend a d).2 =
          m.add_alert .EMERGENCY "Spend would exceed hard cap" ∧
        (m.record_spend a d).2.spent = m.spent ∧
        (m.record_spend a d).2.budget.actual_cost_usd = m.budget.actual_cost_usd ∧
        (m.record_spend a d).2.spend_history = m.spend_history) ∧
      (¬ m.spent + a > m.budget.caps.hard_cap_usd →
        (m.record_spend a d).1 = true ∧
        (m.record_spend a d).2.spent = m.spent + a ∧
        (m.record_spend a d).2.budget.actual_cost_usd = m.spent + a ∧
        (m.record_spend a d).2.spend_history = m.spend_history ++
          [{ amount := a, description := d, total_spent := m.spent + a,
             remaining := m.budget.caps.hard_cap_usd - (m.spent + a) }])) ∧
    (∀ (budget : BudgetModel) (amounts : List ℚ),
      (∀ a ∈ amounts, (0 : ℚ) ≤ a) → 0 ≤ budget.caps.hard_cap_usd →
      ((BudgetManager.init budget).spendAll amounts).spent ≤
        budget.caps.hard_cap_usd) := by
  constructor
  · intro m a d
    constructor
    · intro h
      rw [record_spend_reject m a d h]
      simp [BudgetManager.add_alert]
    · intro h
      obtain ⟨h1, h2, _, h4, h5⟩ := record_spend_accept m a d h
      exact ⟨h1, h2, h4, h5⟩
  · intro budget amounts _ hcap
    have h0 : (BudgetManager.init budget).spent ≤
        (BudgetManager.init budget).budget.caps.hard_cap_usd := by
      simpa [BudgetManager.init] using hcap
    have := spendAll_le_cap amounts (BudgetManager.init budget) h0
    rwa [spendAll_caps] at this

/-- C2 witness: a spend of 150 against a hard cap of 100 is rejected with
spent unchanged at 0, and a fresh manager fed 50, 40, 30 ends at or below
the cap. -/
theorem record_spend_spec_witness :
    ((mgr100 0).record_spend 150 "x").1 = false ∧
    ((mgr100 0).record_spend 150 "x").2.spent = 0 ∧
    ((BudgetManager.init budget100).spendAll [50, 40, 30]).spent ≤ 100 := by
  refine ⟨(((record_spend_spec.1 (mgr100 0) 150 "x").1 (by norm_num [mgr100, budget100])).1),
    ?_, ?_⟩
  · have := ((record_spend_spec.1 (mgr100 0) 150 "x").1
      (by norm_num [mgr100, budget100])).2.2.1
    simpa [mgr100] using this
  · have := record_spend_spec.2 budget100 [50, 40, 30]
      (by intro a ha; fin_cases ha <;> norm_num) (by norm_num [budget100])
    simpa [budget100] using this

/-- C3: get_alert_level is the strict ladder EMERGENCY, EXCEEDED_SOFT,
CRITICAL, WARNING, NORMAL evaluated top-down against 0.9 times the hard
cap, the soft cap, 0.9 and 0.7 times the soft cap; with soft cap 80 and
hard cap 100, spent 0, 56, 72, 81, 90 give the five levels in order. -/
theorem alert_level_ladder :
    (∀ m : BudgetManager,
      (m.spent ≥ m.budget.caps.hard_cap_usd * (9 / 10) →
        m.get_alert_level = .EMERGENCY) ∧
      (m.spent < m.budget.caps.hard_cap_usd * (9 / 10) →
        m.spent ≥ m.budget.caps.soft_cap_usd →
        m.get_alert_level = .EXCEEDED_SOFT) ∧
      (m.spent < m.budget.caps.hard_cap_usd * (9 / 10) →
        m.spent < m.budget.caps.soft_cap_usd →
        m.spent ≥ m.budget.caps.soft_cap_usd * (9 / 10) →
        m.get_alert_level = .CRITICAL) ∧
      (m.spent < m.budget.caps.hard_cap_usd * (9 / 10) →
        m.spent < m.budget.caps.soft_cap_usd →
        m.spent < m.budget.caps.soft_cap_usd * (9 / 10) →
        m.spent ≥ m.budget.caps.soft_cap_usd * (7 / 10) →
        m.get_alert_level = .WARNING) ∧
      (m.spent < m.budget.caps.hard_cap_usd * (9 / 10) →
        m.spent < m.budget.caps.soft_cap_usd →
        m.spent < m.budget.caps.soft_cap_usd * (9 / 10) →
        m.spent < m.budget.caps.soft_cap_usd * (7 / 10) →
        m.get_alert_level = .NORMAL)) ∧
    (mgr100 0).get_alert_level = .NORMAL ∧
    (mgr100 56).get_alert_level = .WARNING ∧
    (mgr100 72).get_alert_level = .CRITICAL ∧
    (mgr100 81).get_alert_level = .EXCEEDED_SOFT ∧
    (mgr100 90).get_alert_level = .EMERGENCY := by
  refine ⟨?_, by decide, by decide, by decide, by decide, by decide⟩
  intro m
  refine ⟨?_, ?_, ?_, ?_, ?_⟩
  · intro h1
    unfold BudgetManager.get_alert_level
    rw [if_pos h1]
  · intro h1 h2
    unfold BudgetManager.get_alert_level
    rw [if_neg (not_le.mpr h1), if_pos h2]
  · intro h1 h2 h3
    unfold BudgetManager.get_alert_level
    rw [if_neg (not_le.mpr h1), if_neg (not_le.mpr h2), if_pos h3]
  · intro h1 h2 h3 h4
    unfold BudgetManager.get_alert_level
    rw [if_neg (not_le.mpr h1), if_neg (not_le.mpr h2), if_neg (not_le.mpr h3),
      if_pos h4]
  · intro h1 h2 h3 h4
    unfold BudgetManager.get_alert_level
    rw [if_neg (not_le.mpr h1), if_neg (not_le.mpr h2), if_neg (not_le.mpr h3),
      if_neg (not_le.mpr h4)]

/-- C3 witness: the EMERGENCY case applied at spent 95 against caps 80/100,
and the WARNING case at spent 60. -/
theorem alert_level_ladder_witness :
    (mgr100 95).get_alert_level = .EMERGENCY ∧
    (mgr100 60).get_alert_level = .WARNING := by
  constructor
  · exact ((alert_level_ladder.1 (mgr100 95)).1 (by norm_num [mgr100, budget100]))
  · exact ((alert_level_ladder.1 (mgr100 60)).2.2.2.1
      (by norm_num [mgr100, budget100]) (by norm_num [mgr100, budget100])
      (by norm_num [mgr100, budget100]) (by norm_num [mgr100, budget100]))

/-! ## Helper lemmas: metrics -/

theorem foldl_add_map {α : Type} (f : α → ℚ) (l : List α) (init : ℚ) :
    l.foldl (fun acc x => acc + f x) init = init + (l.map f).sum := by
  induction l generalizing init with
  | nil => simp
  | cons a r ih => simp [ih, add_assoc]

theorem kr_attainment_eq_spec (e : MetricsEngine) (kr : KeyResult) :
    e.kr_attainment kr =
      attainmentSpec kr.direction kr.target (lookupD e.kr_values kr.id kr.current) := by
  simp only [MetricsEngine.kr_attainment, attainmentSpec]
  cases kr.direction with
  | GTE =>
    by_cases h : kr.target > 0
    · rw [if_pos h, if_neg (not_le.mpr h)]
    · rw [if_neg h, if_pos (le_of_not_lt h)]
  | LTE =>
    by_cases h : lookupD e.kr_values kr.id kr.current > 0
    · rw [if_pos h, if_neg (not_le.mpr h)]
    · rw [if_neg h, if_pos (le_of_not_lt h)]
  | EQ => rfl

theorem kpi_attainment_eq_spec (e : MetricsEngine) (kpi : KPI) :
    e.calculate_kpi_attainment kpi =
      attainmentSpec kpi.direction kpi.target (lookupD e.kpi_values kpi.id kpi.current) := by
  simp only [MetricsEngine.calculate_kpi_attainment, attainmentSpec]
  cases kpi.direction with
  | GTE =>
    by_cases h : kpi.target > 0
    · rw [if_pos h, if_neg (not_le.mpr h)]
    · rw [if_neg h, if_pos (le_of_not_lt h)]
  | LTE =>
    by_cases h : lookupD e.kpi_values kpi.id kpi.current > 0
    · rw [if_pos h, if_neg (not_le.mpr h)]
    · rw [if_neg h, if_pos (le_of_not_lt h)]
  | EQ => rfl

theorem attainmentSpec_le_100 (d : Direction) (t c : ℚ) :
    attainmentSpec d t c ≤ 100 := by
  unfold attainmentSpec
  exact min_le_right _ _

theorem okr_attainment_eq_spec (e : MetricsEngine) (okr : OKR) :
    e.calculate_okr_attainment okr = okrAttainmentSpec e okr := by
  unfold MetricsEngine.calculate_okr_attainment okrAttainmentSpec
  by_cases h : okr.key_results = []
  · simp [h]
  · rw [if_neg (by simpa [List.isEmpty_iff] using h), if_neg h]
    congr 1
    rw [foldl_add_map (fun kr => e.kr_attainment kr) okr.key_results 0, zero_add]
    congr 1
    exact List.map_congr_left fun kr _ => kr_attainment_eq_spec e kr

theorem okr_attainment_le_100 (e : MetricsEngine) (okr : OKR) :
    e.calculate_okr_attainment okr ≤ 100 := by
  rw [okr_attainment_eq_spec]
  unfold okrAttainmentSpec
  by_cases h : okr.key_results = []
  · simp [h]
  · rw [if_neg h]
    have hlen : 0 < (okr.key_results.length : ℚ) := by
      have : okr.key_results ≠ [] := h
      have := List.length_pos.mpr this
      exact_mod_cast this
    rw [div_le_iff₀ hlen]
    have hb : ∀ x ∈ (okr.key_results.map fun kr =>
        attainmentSpec kr.direction kr.target
          (lookupD e.kr_values kr.id kr.current)), x ≤ 100 := by
      intro x hx
      obtain ⟨kr, _, rfl⟩ := List.mem_map.mp hx
      exact attainmentSpec_le_100 _ _ _
    calc (okr.key_results.map fun kr =>
          attainmentSpec kr.direction kr.target
            (lookupD e.kr_values kr.id kr.current)).sum
        ≤ (okr.key_results.map fun kr =>
            attainmentSpec kr.direction kr.target
              (lookupD e.kr_values kr.id kr.current)).length • (100 : ℚ) :=
          List.sum_le_card_nsmul _ _ hb
      _ = 100 * okr.key_results.length := by
          simp [nsmul_eq_mul, mul_comm]

/-! ## Claim theorem: metrics attainment (C4) -/

/-- C4: the kpi and key-result attainment computed by the MetricsEngine is
exactly the claimed formula (GTE gives current/target x 100 with 0 for
nonpositive targets, LTE gives target/current x 100 with 100 for
nonpositive currents, EQ is all-or-nothing), capped at 100 in every case;
an OKR attains the unweighted mean of its key results and 0 with none. -/
theorem attainment_formulas :
    (∀ (e : MetricsEngine) (kpi : KPI),
      e.calculate_kpi_attainment kpi =
        attainmentSpec kpi.direction kpi.target
          (lookupD e.kpi_values kpi.id kpi.current) ∧
      e.calculate_kpi_attainment kpi ≤ 100) ∧
    (∀ (e : MetricsEngine) (okr : OKR),
      e.calculate_okr_attainment okr = okrAttainmentSpec e okr ∧
      e.calculate_okr_attainment okr ≤ 100 ∧
      (okr.key_results = [] → e.calculate_okr_attainment okr = 0)) := by
  refine ⟨fun e kpi => ⟨kpi_attainment_eq_spec e kpi, ?_⟩,
    fun e okr => ⟨okr_attainment_eq_spec e okr, okr_attainment_le_100 e okr, ?_⟩⟩
  · rw [kpi_attainment_eq_spec]
    exact attainmentSpec_le_100 _ _ _
  · intro h
    simp [MetricsEngine.calculate_okr_attainment, h]

/-- C4 witness: a GTE key result at 50 of 100 attains 50 percent, one at
500 of 100 is capped at 100, and an OKR with no key results attains 0. -/
theorem attainment_formulas_witness :
    (MetricsEngine.calculate_kpi_attainment {}
      { id := "k", metric := "m", target := 100, current := 50,
        direction := .GTE, owner_agent_id := "a" } = 50) ∧
    (MetricsEngine.calculate_kpi_attainment {}
      { id := "k", metric := "m", target := 100, current := 500,
        direction := .GTE, owner_agent_id := "a" } = 100) ∧
    (MetricsEngine.calculate_okr_attainment {}
      { objective := { id := "o", title := "t", description := "d",
                       owner_agent_id := "a" },
        key_results := [] } = 0) := by
  refine ⟨?_, ?_, ?_⟩
  · rw [(attainment_formulas.1 {} _).1]
    norm_num [attainmentSpec, lookupD, List.lookup]
  · rw [(attainment_formulas.1 {} _).1]
    norm_num [attainmentSpec, lookupD, List.lookup]
  · exact (attainment_formulas.2 {} _).2.2 rfl

/-! ## Helper lemmas: tool cost (C8) -/

theorem estimate_tool_cost_fold (tool_ids : List String) (init : ℚ) :
    tool_ids.foldl
      (fun total tool_id =>
        match TOOL_REGISTRY.lookup tool_id with
        | some tool => total + costMapGet tool.cost_tier
        | none => total)
      init = init + estimateToolCostActual tool_ids := by
  induction tool_ids generalizing init with
  | nil => simp [estimateToolCostActual]
  | cons t rest ih =>
    cases h : TOOL_REGISTRY.lookup t with
    | some tool =>
      simp only [List.foldl, h, estimateToolCostActual, List.map, List.sum_cons]
      rw [ih]
      simp [estimateToolCostActual, add_assoc]
    | none =>
      simp only [List.foldl, h, estimateToolCostActual, List.map, List.sum_cons]
      rw [ih]
      simp [estimateToolCostActual]

/-! ## Claim theorems: tool cost (C8, corrected) -/

/-- C8 counterexample: an unknown tool id contributes nothing, not the
0.01 the claim asserts, so the code value differs from the claimed sum. -/
theorem estimate_tool_cost_unknown_cex :
    ToolSelector.estimate_tool_cost ["mystery_tool"] = 0 ∧
    estimateToolCostClaimed ["mystery_tool"] = 1 / 100 ∧
    ToolSelector.estimate_tool_cost ["mystery_tool"] ≠
      estimateToolCostClaimed ["mystery_tool"] := by
  refine ⟨by decide, by decide, by decide⟩

/-- C8 amended: estimate_tool_cost sums the per-tier cost 0.01/0.05/0.10
over the tool ids found in the registry (0.01 for an out-of-range tier) and
skips unknown tool ids entirely, so each unknown id contributes 0. -/
theorem estimate_tool_cost_spec (tool_ids : List String) :
    ToolSelector.estimate_tool_cost tool_ids = estimateToolCostActual tool_ids := by
  unfold ToolSelector.estimate_tool_cost
  rw [estimate_tool_cost_fold]
  simp

/-! ## Helper lemmas: association lists and the OAG schema -/

theorem lookup_mem {α : Type} (xs : List (String × α)) (k : String) (v : α)
    (h : xs.lookup k = some v) : (k, v) ∈ xs := by
  induction xs with
  | nil => simp [List.lookup] at h
  | cons p rest ih =>
    obtain ⟨a, b⟩ := p
    by_cases hk : k = a
    · subst hk
      simp [List.lookup] at h
      subst h
      exact List.mem_cons_self _ _
    · have hba : (k == a) = false := beq_eq_false_iff_ne.mpr hk
      simp only [List.lookup, hba] at h
      exact List.mem_cons_of_mem _ (ih h)

theorem validate_ok_of_wellKeyed (nodes : List (String × Node))
    (h : WellKeyed nodes) : validate_node_types nodes = .ok nodes := by
  induction nodes with
  | nil => rfl
  | cons p rest ih =>
    have hp : p.1 = p.2.id := h p (List.mem_cons_self _ _)
    have hrest : WellKeyed rest := fun q hq => h q (List.mem_cons_of_mem _ hq)
    obtain ⟨k, n⟩ := p
    have hk : k = n.id := hp
    simp only [validate_node_types]
    rw [if_neg (not_not_intro hk), ih hrest]

theorem validate_ok_elim (nodes ys : List (String × Node))
    (h : validate_node_types nodes = .ok ys) : ys = nodes ∧ WellKeyed nodes := by
  induction nodes generalizing ys with
  | nil =>
    simp only [validate_node_types] at h
    cases h
    exact ⟨rfl, by intro p hp; simp at hp⟩
  | cons p rest ih =>
    obtain ⟨k, n⟩ := p
    simp only [validate_node_types] at h
    by_cases hk : k ≠ n.id
    · rw [if_pos hk] at h
      cases h
    · rw [if_neg hk] at h
      cases hrec : validate_node_types rest with
      | ok r =>
        rw [hrec] at h
        cases h
        obtain ⟨hr, hw⟩ := ih r hrec
        subst hr
        refine ⟨rfl, ?_⟩
        intro q hq
        rcases List.mem_cons.mp hq with h1 | h2
        · subst h1
          exact not_not.mp hk
        · exact hw q h2
      | error e =>
        rw [hrec] at h
        cases h

/-! ## Claim theorem: OAG node-key invariant (C6) -/

/-- C6: OAG construction succeeds exactly when every nodes-map key equals
the contained node's own id (anything else is a validation error), the
constructed OAG carries the given fields, add_node preserves the
invariant, and under it get_node, get_agents and get_tasks return exactly
the correspondingly keyed nodes. -/
theorem oag_node_key_invariant :
    (∀ (meta : OrgMeta) (budget : BudgetModel) (nodes : List (String × Node))
        (edges : List Edge),
      ((∃ oag, mkOAG meta budget nodes edges = .ok oag) ↔ WellKeyed nodes) ∧
      (∀ oag, mkOAG meta budget nodes edges = .ok oag →
        oag = { meta := meta, budget := budget, nodes := nodes, edges := edges }) ∧
      (¬ WellKeyed nodes → ∃ e, mkOAG meta budget nodes edges = .error e)) ∧
    (∀ (oag : OAG) (n : Node), WellKeyed oag.nodes →
      WellKeyed (oag.add_node n).nodes) ∧
    (∀ oag : OAG, WellKeyed oag.nodes →
      (∀ k n, oag.get_node k = some n → n.id = k) ∧
      (∀ k a, (k, a) ∈ oag.get_agents ↔ (k, Node.agent a) ∈ oag.nodes) ∧
      (∀ k t, (k, t) ∈ oag.get_tasks ↔ (k, Node.task t) ∈ oag.nodes) ∧
      (∀ k a, (k, a) ∈ oag.get_agents → a.id = k) ∧
      (∀ k t, (k, t) ∈ oag.get_tasks → t.id = k)) := by
  refine ⟨?_, ?_, ?_⟩
  · intro meta budget nodes edges
    refine ⟨⟨?_, ?_⟩, ?_, ?_⟩
    · rintro ⟨oag, hok⟩
      unfold mkOAG at hok
      cases hval : validate_node_types nodes with
      | ok ys =>
        exact (validate_ok_elim nodes ys hval).2
      | error e =>
        rw [hval] at hok
        cases hok
    · intro hw
      exact ⟨_, by unfold mkOAG; rw [validate_ok_of_wellKeyed nodes hw]⟩
    · intro oag hok
      unfold mkOAG at hok
      cases hval : validate_node_types nodes with
      | ok ys =>
        rw [hval] at hok
        cases hok
        obtain ⟨hy, _⟩ := validate_ok_elim nodes ys hval
        rw [hy]
      | error e =>
        rw [hval] at hok
        cases hok
    · intro hnw
      unfold mkOAG
      cases hval : validate_node_types nodes with
      | ok ys =>
        exact absurd (validate_ok_elim nodes ys hval).2 hnw
      | error e =>
        exact ⟨e, rfl⟩
  · intro oag n hw
    intro p hp
    have hnodes : (oag.add_node n).nodes = dictUpd oag.nodes n.id n := rfl
    rw [hnodes] at hp
    unfold dictUpd at hp
    split at hp
    · obtain ⟨q, hq, hpq⟩ := List.mem_map.mp hp
      by_cases hqk : q.1 = n.id
      · rw [if_pos hqk] at hpq
        subst hpq
        rfl
      · rw [if_neg hqk] at hpq
        subst hpq
        exact hw q hq
    · rcases List.mem_append.mp hp with h1 | h2
      · exact hw p h1
      · simp at h2
        subst h2
        rfl
  · intro oag hw
    refine ⟨?_, ?_, ?_, ?_, ?_⟩
    · intro k n h
      exact (hw (k, n) (lookup_mem oag.nodes k n h)).symm
    · intro k a
      constructor
      · intro h
        obtain ⟨p, hp, hf⟩ := List.mem_filterMap.mp h
        obtain ⟨pk, pn⟩ := p
        cases pn with
        | agent a2 =>
          simp at hf
          obtain ⟨h1, h2⟩ := hf
          subst h1; subst h2
          exact hp
        | task t2 => simp at hf
      · intro h
        exact List.mem_filterMap.mpr ⟨(k, Node.agent a), h, rfl⟩
    · intro k t
      constructor
      · intro h
        obtain ⟨p, hp, hf⟩ := List.mem_filterMap.mp h
        obtain ⟨pk, pn⟩ := p
        cases pn with
        | agent a2 => simp at hf
        | task t2 =>
          simp at hf
          obtain ⟨h1, h2⟩ := hf
          subst h1; subst h2
          exact hp
      · intro h
        exact List.mem_filterMap.mpr ⟨(k, Node.task t), h, rfl⟩
    · intro k a h
      obtain ⟨p, hp, hf⟩ := List.mem_filterMap.mp h
      obtain ⟨pk, pn⟩ := p
      cases pn with
      | agent a2 =>
        simp at hf
        obtain ⟨h1, h2⟩ := hf
        subst h1; subst h2
        exact (hw _ hp).symm
      | task t2 => simp at hf
    · intro k t h
      obtain ⟨p, hp, hf⟩ := List.mem_filterMap.mp h
      obtain ⟨pk, pn⟩ := p
      cases pn with
      | agent a2 => simp at hf
      | task t2 =>
        simp at hf
        obtain ⟨h1, h2⟩ := hf
        subst h1; subst h2
        exact (hw _ hp).symm

/-- C6 witness: a mis-keyed map is rejected, a correctly keyed map is
accepted, and add_node keeps chainOAG well-keyed. -/
theorem oag_node_key_invariant_witness :
    (∃ e, mkOAG { project_id := "w", title := "W" } budget100
        [("bad", .task (fixtureTask "task_a" "A" 1))] [] = .error e) ∧
    (∃ oag, mkOAG { project_id := "w", title := "W" } budget100
        chainOAG.nodes [] = .ok oag) ∧
    WellKeyed (chainOAG.add_node
      (.agent { id := "agent_x", role := "X", level := .IC })).nodes := by
  refine ⟨?_, ?_, ?_⟩
  · exact (oag_node_key_invariant.1 _ budget100 _ []).2.2 (by decide)
  · exact ((oag_node_key_invariant.1 _ budget100 _ []).1).mpr (by decide)
  · exact oag_node_key_invariant.2.1 chainOAG _ (by decide)

/-! ## Claim theorems: orchestrator state persistence (C5, corrected) -/

/-- C5 counterexample: saving a BoardRoom that has spent 56 with one alert
and loading the file into a fresh instance yields a budget manager with
spent 0 and no alerts, and the fresh project id is kept, so the saved
spend total, alert list and project id are not reproduced. -/
theorem load_state_roundtrip_cex :
    (((BoardRoom.mk0 "fresh-uuid").load_state savedBR.to_dict).budget_manager.map
      BudgetManager.spent = some 0) ∧
    (savedBR.budget_manager.map BudgetManager.spent = some 56) ∧
    (((BoardRoom.mk0 "fresh-uuid").load_state savedBR.to_dict).budget_manager.map
      BudgetManager.alerts = some []) ∧
    (savedBR.budget_manager.map BudgetManager.alerts ≠ some []) ∧
    (((BoardRoom.mk0 "fresh-uuid").load_state savedBR.to_dict).project_id ≠
      savedBR.project_id) := by
  refine ⟨by decide, by decide, by decide, by decide, by decide⟩

/-- C5 amended: load_state into a fresh instance reproduces the state map,
the PRD content and the OAG content, but keeps the fresh instance's own
project id and rebuilds the budget manager from the restored OAG budget
with spent 0 and no alerts; the from_dict constructor, by contrast,
restores the saved project id, spent total and alert list. -/
theorem load_state_spec (br : BoardRoom) (u : String) :
    (((BoardRoom.mk0 u).load_state br.to_dict).sstate = br.sstate) ∧
    (((BoardRoom.mk0 u).load_state br.to_dict).prd = br.prd) ∧
    (((BoardRoom.mk0 u).load_state br.to_dict).oag = br.oag) ∧
    (((BoardRoom.mk0 u).load_state br.to_dict).project_id = u) ∧
    (∀ oag, br.oag = some oag →
      ((BoardRoom.mk0 u).load_state br.to_dict).budget_manager =
        some (BudgetManager.init oag.budget)) ∧
    (br.oag = none →
      ((BoardRoom.mk0 u).load_state br.to_dict).budget_manager = none) ∧
    ((BoardRoom.from_dict br.to_dict).project_id = br.project_id) ∧
    (∀ oag bm, br.oag = some oag → br.budget_manager = some bm →
      (BoardRoom.from_dict br.to_dict).budget_manager =
        some { BudgetManager.init oag.budget with
               spent := bm.spent, alerts := bm.alerts }) := by
  cases hoag : br.oag with
  | none =>
    cases hprd : br.prd with
    | none =>
      simp [BoardRoom.load_state, BoardRoom.to_dict, BoardRoom.mk0,
        BoardRoom.from_dict, hoag, hprd]
    | some p =>
      simp [BoardRoom.load_state, BoardRoom.to_dict, BoardRoom.mk0,
        BoardRoom.from_dict, hoag, hprd]
  | some oag =>
    cases hbm : br.budget_manager with
    | none =>
      cases hprd : br.prd with
      | none =>
        simp [BoardRoom.load_state, BoardRoom.to_dict, BoardRoom.mk0,
          BoardRoom.from_dict, hoag, hprd, hbm]
      | some p =>
        simp [BoardRoom.load_state, BoardRoom.to_dict, BoardRoom.mk0,
          BoardRoom.from_dict, hoag, hprd, hbm]
    | some bm =>
      cases hprd : br.prd with
      | none =>
        simp [BoardRoom.load_state, BoardRoom.to_dict, BoardRoom.mk0,
          BoardRoom.from_dict, hoag, hprd, hbm]
      | some p =>
        simp [BoardRoom.load_state, BoardRoom.to_dict, BoardRoom.mk0,
          BoardRoom.from_dict, hoag, hprd, hbm]

/-- C5 witness: the amended spec applied to the savedBR fixture and a fresh
id. -/
theorem load_state_spec_witness :
    (((BoardRoom.mk0 "fresh-uuid").load_state savedBR.to_dict).oag = savedBR.oag) ∧
    (((BoardRoom.mk0 "fresh-uuid").load_state savedBR.to_dict).project_id =
      "fresh-uuid") ∧
    ((BoardRoom.from_dict savedBR.to_dict).budget_manager =
      some { BudgetManager.init bm56.budget with
             spent := bm56.spent, alerts := bm56.alerts }) := by
  refine ⟨(load_state_spec savedBR "fresh-uuid").2.2.1,
    (load_state_spec savedBR "fresh-uuid").2.2.2.1, ?_⟩
  exact (load_state_spec savedBR "fresh-uuid").2.2.2.2.2.2.2 _ bm56 rfl rfl

/-! ## Helper lemmas: association-list updates -/

theorem lookup_replaceAll {α : Type} (xs : List (String × α)) (k j : String) (v : α) :
    (xs.map fun p => if p.1 = k then (k, v) else p).lookup j =
      if j = k then (if (xs.lookup k).isSome then some v else none)
      else xs.lookup j := by
  induction xs with
  | nil => by_cases h : j = k <;> simp [List.lookup, h]
  | cons p rest ih =>
    obtain ⟨a, b⟩ := p
    by_cases hak : a = k
    · have hhead : (if ((a, b) : String × α).1 = k then (k, v) else (a, b)) =
          (k, v) := by simp [hak]
      rw [List.map_cons, hhead]
      by_cases hj : j = k
      · subst hj
        simp [List.lookup, hak]
      · have hba : (j == k) = false := beq_eq_false_iff_ne.mpr hj
        have hba2 : (j == a) = false := beq_eq_false_iff_ne.mpr (hak ▸ hj)
        simp only [List.lookup, hba, hba2, ih, if_neg hj]
    · have hhead : (if ((a, b) : String × α).1 = k then (k, v) else (a, b)) =
          (a, b) := by simp [hak]
      rw [List.map_cons, hhead]
      by_cases hj : j = a
      · subst hj
        have hjk : ¬ j = k := hak
        simp [List.lookup, if_neg hjk]
      · have hba : (j == a) = false := beq_eq_false_iff_ne.mpr hj
        have hka : (k == a) = false := beq_eq_false_iff_ne.mpr fun h => hak h.symm
        by_cases hjk : j = k
        · subst hjk
          simp only [List.lookup, hba, ih, if_pos rfl, hka]
        · simp only [List.lookup, hba, ih, if_neg hjk]

theorem lookup_append_or {α : Type} (xs ys : List (String × α)) (j : String) :
    (xs ++ ys).lookup j =
      match xs.lookup j with
      | some v => some v
      | none => ys.lookup j := by
  induction xs with
  | nil => simp [List.lookup]
  | cons p rest ih =>
    obtain ⟨a, b⟩ := p
    by_cases hj : j = a
    · subst hj
      simp [List.lookup]
    · have hba : (j == a) = false := beq_eq_false_iff_ne.mpr hj
      simp only [List.cons_append, List.lookup, hba]
      exact ih

theorem lookup_dictUpd {α : Type} (xs : List (String × α)) (k : String) (v : α)
    (j : String) :
    (dictUpd xs k v).lookup j = if j = k then some v else xs.lookup j := by
  unfold dictUpd
  by_cases hs : (xs.lookup k).isSome
  · rw [if_pos hs, lookup_replaceAll]
    by_cases hj : j = k
    · rw [if_pos hj, if_pos hj, if_pos hs]
    · rw [if_neg hj, if_neg hj]
  · rw [if_neg hs, lookup_append_or]
    by_cases hj : j = k
    · subst hj
      have hn : xs.lookup j = none := by
        cases h : xs.lookup j with
        | none => rfl
        | some w => rw [h] at hs; simp at hs
      rw [hn, if_pos rfl]
      simp [List.lookup]
    · rw [if_neg hj]
      cases h : xs.lookup j with
      | none =>
        have hba : (j == k) = false := beq_eq_false_iff_ne.mpr hj
        simp [List.lookup, hba]
      | some w => rfl

theorem lookup_mapTask (xs : List (String × Node)) (t : String)
    (g : TaskSpec → TaskSpec) (j : String) :
    (mapTask t g xs).lookup j =
      if j = t then
        (match xs.lookup t with
         | some (.task ts) => some (.task (g ts))
         | o => o)
      else xs.lookup j := by
  induction xs with
  | nil => by_cases h : j = t <;> simp [mapTask, List.lookup, h]
  | cons p rest ih =>
    obtain ⟨a, n⟩ := p
    cases n with
    | agent a2 =>
      have hmap : mapTask t g ((a, Node.agent a2) :: rest) =
          (a, Node.agent a2) :: mapTask t g rest := by
        simp [mapTask]
      rw [hmap]
      by_cases hj : j = a
      · subst hj
        by_cases hjt : j = t
        · subst hjt
          simp [List.lookup]
        · simp [List.lookup, if_neg hjt]
      · have hba : (j == a) = false := beq_eq_false_iff_ne.mpr hj
        by_cases hjt : j = t
        · subst hjt
          simp only [List.lookup, hba, ih, if_pos rfl]
        · simp only [List.lookup, hba, ih, if_neg hjt]
    | task ts =>
      by_cases hat : a = t
      · subst hat
        have hmap : mapTask a g ((a, Node.task ts) :: rest) =
            (a, Node.task (g ts)) :: mapTask a g rest := by
          simp [mapTask]
        rw [hmap]
        by_cases hj : j = a
        · subst hj
          simp [List.lookup]
        · have hba : (j == a) = false := beq_eq_false_iff_ne.mpr hj
          simp only [List.lookup, hba, ih, if_neg hj]
      · have hmap : mapTask t g ((a, Node.task ts) :: rest) =
            (a, Node.task ts) :: mapTask t g rest := by
          simp [mapTask, hat]
        rw [hmap]
        by_cases hj : j = a
        · subst hj
          simp [List.lookup, if_neg hat]
        · have hba : (j == a) = false := beq_eq_false_iff_ne.mpr hj
          by_cases hjt : j = t
          · subst hjt
            simp only [List.lookup, hba, ih, if_pos rfl]
          · simp only [List.lookup, hba, ih, if_neg hjt]

/-! ## Helper lemmas: OAG task mutations -/

theorem get_node_setTaskStatus (oag : OAG) (t : String) (st : TaskStatus) (j : String) :
    (oag.setTaskStatus t st).get_node j =
      if j = t then
        (match oag.get_node t with
         | some (.task ts) => some (.task { ts with status := st })
         | o => o)
      else oag.get_node j :=
  lookup_mapTask oag.nodes t _ j

theorem get_node_setTaskDone (oag : OAG) (t : String)
    (artifacts : List (String × String)) (cost : ℚ) (j : String) :
    (oag.setTaskDone t artifacts cost).get_node j =
      if j = t then
        (match oag.get_node t with
         | some (.task ts) => some (.task (doneUpdate artifacts cost ts))
         | o => o)
      else oag.get_node j :=
  lookup_mapTask oag.nodes t _ j

theorem taskStatusOf_setTaskStatus_ne (oag : OAG) (t : String) (st : TaskStatus)
    (j : String) (h : j ≠ t) :
    taskStatusOf (oag.setTaskStatus t st) j = taskStatusOf oag j := by
  unfold taskStatusOf
  rw [get_node_setTaskStatus, if_neg h]

theorem taskStatusOf_setTaskStatus_self (oag : OAG) (t : String) (st : TaskStatus)
    (h : isTaskOf oag t = true) :
    taskStatusOf (oag.setTaskStatus t st) t = some st := by
  unfold isTaskOf at h
  unfold taskStatusOf
  rw [get_node_setTaskStatus, if_pos rfl]
  cases hn : oag.get_node t with
  | none => simp [hn] at h
  | some n =>
    cases n with
    | agent a => simp [hn] at h
    | task ts => rfl

theorem taskStatusOf_setTaskDone_ne (oag : OAG) (t : String)
    (artifacts : List (String × String)) (cost : ℚ) (j : String) (h : j ≠ t) :
    taskStatusOf (oag.setTaskDone t artifacts cost) j = taskStatusOf oag j := by
  unfold taskStatusOf
  rw [get_node_setTaskDone, if_neg h]

theorem taskStatusOf_setTaskDone_self (oag : OAG) (t : String)
    (artifacts : List (String × String)) (cost : ℚ)
    (h : isTaskOf oag t = true) :
    taskStatusOf (oag.setTaskDone t artifacts cost) t = some .DONE := by
  unfold isTaskOf at h
  unfold taskStatusOf
  rw [get_node_setTaskDone, if_pos rfl]
  cases hn : oag.get_node t with
  | none => simp [hn] at h
  | some n =>
    cases n with
    | agent a => simp [hn] at h
    | task ts => rfl

theorem isTaskOf_setTaskStatus (oag : OAG) (t : String) (st : TaskStatus)
    (j : String) :
    isTaskOf (oag.setTaskStatus t st) j = isTaskOf oag j := by
  unfold isTaskOf
  rw [get_node_setTaskStatus]
  by_cases hj : j = t
  · subst hj
    cases hn : oag.get_node j with
    | none => simp
    | some n => cases n <;> simp
  · rw [if_neg hj]

theorem isTaskOf_setTaskDone (oag : OAG) (t : String)
    (artifacts : List (String × String)) (cost : ℚ) (j : String) :
    isTaskOf (oag.setTaskDone t artifacts cost) j = isTaskOf oag j := by
  unfold isTaskOf
  rw [get_node_setTaskDone]
  by_cases hj : j = t
  · subst hj
    cases hn : oag.get_node j with
    | none => simp
    | some n => cases n <;> simp
  · rw [if_neg hj]

theorem graphPreds_setTaskStatus (oag : OAG) (t : String) (st : TaskStatus)
    (j : String) :
    graphPreds (oag.setTaskStatus t st) j = graphPreds oag j := by
  unfold graphPreds
  have hedges : (oag.setTaskStatus t st).edges = oag.edges := rfl
  rw [hedges]
  apply List.filterMap_congr
  intro e _
  simp [isTaskOf_setTaskStatus]

theorem graphPreds_setTaskDone (oag : OAG) (t : String)
    (artifacts : List (String × String)) (cost : ℚ) (j : String) :
    graphPreds (oag.setTaskDone t artifacts cost) j = graphPreds oag j := by
  unfold graphPreds
  have hedges : (oag.setTaskDone t artifacts cost).edges = oag.edges := rfl
  rw [hedges]
  apply List.filterMap_congr
  intro e _
  simp [isTaskOf_setTaskDone]

theorem taskArtifactsOf_setTaskDone_self (oag : OAG) (t : String)
    (artifacts : List (String × String)) (cost : ℚ)
    (h : isTaskOf oag t = true) :
    taskArtifactsOf (oag.setTaskDone t artifacts cost) t = some artifacts := by
  unfold isTaskOf at h
  unfold taskArtifactsOf
  rw [get_node_setTaskDone, if_pos rfl]
  cases hn : oag.get_node t with
  | none => simp [hn] at h
  | some n =>
    cases n with
    | agent a => simp [hn] at h
    | task ts => rfl

theorem taskActualCostOf_setTaskDone_self (oag : OAG) (t : String)
    (artifacts : List (String × String)) (cost : ℚ)
    (h : isTaskOf oag t = true) :
    taskActualCostOf (oag.setTaskDone t artifacts cost) t = some cost := by
  unfold isTaskOf at h
  unfold taskActualCostOf
  rw [get_node_setTaskDone, if_pos rfl]
  cases hn : oag.get_node t with
  | none => simp [hn] at h
  | some n =>
    cases n with
    | agent a => simp [hn] at h
    | task ts => rfl

/-! ## Helper lemmas: execute_task branch equations -/

theorem isTaskOf_iff (oag : OAG) (u : String) :
    isTaskOf oag u = true ↔ ∃ ts, oag.get_node u = some (.task ts) := by
  unfold isTaskOf
  cases hn : oag.get_node u with
  | none => simp
  | some n => cases n <;> simp

theorem execute_task_not_task (body : ExecBody) (s : ExecState) (u : String)
    (h : isTaskOf s.oag u = false) :
    execute_task body s u = (s, []) := by
  unfold isTaskOf at h
  unfold execute_task
  cases hn : s.oag.get_node u with
  | none => rfl
  | some n =>
    cases n with
    | agent a => rfl
    | task ts => simp [hn] at h

theorem execute_task_no_budget (body : ExecBody) (s : ExecState) (u : String)
    (ts : TaskSpec) (hn : s.oag.get_node u = some (.task ts))
    (hb : ¬ s.bm.can_proceed = true) :
    execute_task body s u =
      ({ s with
         results := dictUpd s.results u
           { task_id := u, status := .FAILED, error := some "Budget exceeded" } },
       [.budget_blocked u]) := by
  simp only [execute_task, hn]
  rw [if_pos hb]

theorem execute_task_ok (body : ExecBody) (s : ExecState) (u : String)
    (ts : TaskSpec) (out : TaskOutput) (cost : ℚ)
    (hn : s.oag.get_node u = some (.task ts)) (hb : s.bm.can_proceed = true)
    (hbody : body ts = .ok (out, cost)) :
    execute_task body s u =
      ({ oag := (s.oag.setTaskStatus u .RUNNING).setTaskDone u out.artifacts cost,
         bm := (s.bm.record_spend cost).2,
         results := dictUpd s.results u
           { task_id := u, status := .DONE, output := some out, cost := cost } },
       [TraceEv.started u (predsDone s u)] ++
         (if (s.bm.record_spend cost).2.is_near_soft_cap then
            [TraceEv.budget_warning u] else []) ++
         [TraceEv.completed u cost]) := by
  simp only [execute_task, hn, hbody]
  rw [if_neg (by simp [hb])]

theorem execute_task_err (body : ExecBody) (s : ExecState) (u : String)
    (ts : TaskSpec) (e : String)
    (hn : s.oag.get_node u = some (.task ts)) (hb : s.bm.can_proceed = true)
    (hbody : body ts = .error e) :
    execute_task body s u =
      ({ oag := (s.oag.setTaskStatus u .RUNNING).setTaskStatus u .FAILED,
         bm := s.bm,
         results := dictUpd s.results u
           { task_id := u, status := .FAILED, error := some e } },
       [TraceEv.started u (predsDone s u), TraceEv.task_failed u e]) := by
  simp only [execute_task, hn, hbody]
  rw [if_neg (by simp [hb])]

/-- The facts about one execute_task step that every run-level theorem
needs: results and task statuses of other ids are untouched, the graph
shape is stable, the results-to-status invariant is preserved, and the only
start event it can emit concerns the executed id with the predecessor-DONE
flag taken in the pre-state. -/
theorem execute_task_props (body : ExecBody) (s : ExecState) (u : String) :
    (∀ j, j ≠ u → (execute_task body s u).1.results.lookup j = s.results.lookup j) ∧
    (∀ j, j ≠ u →
      taskStatusOf (execute_task body s u).1.oag j = taskStatusOf s.oag j) ∧
    (∀ j, isTaskOf (execute_task body s u).1.oag j = isTaskOf s.oag j) ∧
    (∀ j, graphPreds (execute_task body s u).1.oag j = graphPreds s.oag j) ∧
    (ResultsDoneInv s → ResultsDoneInv (execute_task body s u).1) ∧
    (∀ t pd, TraceEv.started t pd ∈ (execute_task body s u).2 →
      t = u ∧ pd = predsDone s u) := by
  by_cases ht : isTaskOf s.oag u = true
  · obtain ⟨ts, hn⟩ := (isTaskOf_iff s.oag u).mp ht
    by_cases hb : s.bm.can_proceed = true
    · cases hbody : body ts with
      | ok pr =>
        obtain ⟨out, cost⟩ := pr
        rw [execute_task_ok body s u ts out cost hn hb hbody]
        refine ⟨?_, ?_, ?_, ?_, ?_, ?_⟩
        · intro j hj
          simp [lookup_dictUpd, hj]
        · intro j hj
          simp [taskStatusOf_setTaskDone_ne _ _ _ _ _ hj,
            taskStatusOf_setTaskStatus_ne _ _ _ _ hj]
        · intro j
          simp [isTaskOf_setTaskDone, isTaskOf_setTaskStatus]
        · intro j
          simp [graphPreds_setTaskDone, graphPreds_setTaskStatus]
        · intro hInv p r hl hst
          rw [lookup_dictUpd] at hl
          by_cases hp : p = u
          · rw [if_pos hp] at hl
            cases hl
            subst hp
            rw [taskStatusOf_setTaskDone_self]
            rw [isTaskOf_setTaskStatus]
            exact ht
          · rw [if_neg hp] at hl
            rw [taskStatusOf_setTaskDone_ne _ _ _ _ _ hp,
              taskStatusOf_setTaskStatus_ne _ _ _ _ hp]
            exact hInv p r hl hst
        · intro t pd hmem
          simp only [List.mem_append, List.mem_singleton] at hmem
          rcases hmem with (h1 | h2) | h3
          · simp only [TraceEv.started.injEq] at h1
            exact h1
          · split at h2 <;> simp at h2
          · simp at h3
      | error e =>
        rw [execute_task_err body s u ts e hn hb hbody]
        refine ⟨?_, ?_, ?_, ?_, ?_, ?_⟩
        · intro j hj
          simp [lookup_dictUpd, hj]
        · intro j hj
          simp [taskStatusOf_setTaskStatus_ne _ _ _ _ hj]
        · intro j
          simp [isTaskOf_setTaskStatus]
        · intro j
          simp [graphPreds_setTaskStatus]
        · intro hInv p r hl hst
          rw [lookup_dictUpd] at hl
          by_cases hp : p = u
          · rw [if_pos hp] at hl
            cases hl
            simp at hst
          · rw [if_neg hp] at hl
            rw [taskStatusOf_setTaskStatus_ne _ _ _ _ hp,
              taskStatusOf_setTaskStatus_ne _ _ _ _ hp]
            exact hInv p r hl hst
        · intro t pd hmem
          simp only [List.mem_cons, List.not_mem_nil, or_false] at hmem
          rcases hmem with h1 | h1
          · simp only [TraceEv.started.injEq] at h1
            exact h1
          · simp at h1
    · rw [execute_task_no_budget body s u ts hn hb]
      refine ⟨?_, ?_, ?_, ?_, ?_, ?_⟩
      · intro j hj
        simp [lookup_dictUpd, hj]
      · intro j _
        rfl
      · intro j
        rfl
      · intro j
        rfl
      · intro hInv p r hl hst
        rw [lookup_dictUpd] at hl
        by_cases hp : p = u
        · rw [if_pos hp] at hl
          cases hl
          simp at hst
        · rw [if_neg hp] at hl
          exact hInv p r hl hst
      · intro t pd hmem
        simp at hmem
  · rw [execute_task_not_task body s u (by simpa using ht)]
    refine ⟨fun j _ => rfl, fun j _ => rfl, fun j => rfl, fun j => rfl,
      fun hInv => hInv, ?_⟩
    intro t pd hmem
    simp at hmem

/-! ## Helper lemmas: dependency checks -/

theorem mem_graphPreds_isTask (oag : OAG) (u p : String)
    (h : p ∈ graphPreds oag u) :
    isTaskOf oag u = true ∧ isTaskOf oag p = true := by
  unfold graphPreds at h
  obtain ⟨e, _, he⟩ := List.mem_filterMap.mp h
  by_cases hc : e.to_id = u ∧ isTaskOf oag e.from_id ∧ isTaskOf oag e.to_id
  · rw [if_pos hc] at he
    cases he
    exact ⟨hc.1 ▸ hc.2.2, hc.2.1⟩
  · rw [if_neg hc] at he
    cases he

theorem deps_done_entries (s : ExecState) (u : String)
    (hd : s.dependencies_satisfied u = true) :
    ∀ p ∈ graphPreds s.oag u,
      ∃ r, s.results.lookup p = some r ∧ r.status = .DONE := by
  intro p hp
  have ht := (mem_graphPreds_isTask s.oag u p hp).1
  unfold ExecState.dependencies_satisfied at hd
  rw [if_neg (not_not_intro ht)] at hd
  have := (List.all_eq_true.mp hd) p hp
  cases hl : s.results.lookup p with
  | none => rw [hl] at this; simp at this
  | some r =>
    rw [hl] at this
    simp only [decide_eq_true_eq] at this
    exact ⟨r, rfl, this⟩

theorem predsDone_of_deps (s : ExecState) (u : String)
    (hInv : ResultsDoneInv s) (_ht : isTaskOf s.oag u = true)
    (hd : s.dependencies_satisfied u = true) :
    predsDone s u = true := by
  unfold predsDone
  rw [List.all_eq_true]
  intro p hp
  obtain ⟨r, hl, hst⟩ := deps_done_entries s u hd p hp
  have := hInv p r hl hst
  simp [this]

theorem all_congr_mem {α : Type} (l : List α) (f g : α → Bool)
    (h : ∀ x ∈ l, f x = g x) : l.all f = l.all g := by
  induction l with
  | nil => rfl
  | cons a r ih =>
    simp only [List.all_cons, h a (List.mem_cons_self _ _),
      ih fun x hx => h x (List.mem_cons_of_mem _ hx)]

theorem deps_satisfied_congr (s2 s : ExecState) (u : String)
    (hT : isTaskOf s2.oag u = isTaskOf s.oag u)
    (hG : graphPreds s2.oag u = graphPreds s.oag u)
    (hL : ∀ p ∈ graphPreds s.oag u, s2.results.lookup p = s.results.lookup p) :
    s2.dependencies_satisfied u = s.dependencies_satisfied u := by
  unfold ExecState.dependencies_satisfied
  rw [hT, hG]
  by_cases ht : isTaskOf s.oag u = true
  · rw [if_neg (not_not_intro ht), if_neg (not_not_intro ht)]
    apply all_congr_mem
    intro p hp
    rw [hL p hp]
  · rw [if_pos ht, if_pos ht]

/-! ## Helper lemmas: sequential walk -/

theorem seqVisit_props (body : ExecBody) (s : ExecState) (u : String) :
    (∀ j, j ≠ u → (seqVisit body s u).1.results.lookup j = s.results.lookup j) ∧
    (∀ j, j ≠ u →
      taskStatusOf (seqVisit body s u).1.oag j = taskStatusOf s.oag j) ∧
    (∀ j, isTaskOf (seqVisit body s u).1.oag j = isTaskOf s.oag j) ∧
    (∀ j, graphPreds (seqVisit body s u).1.oag j = graphPreds s.oag j) ∧
    (ResultsDoneInv s → ResultsDoneInv (seqVisit body s u).1) ∧
    (ResultsDoneInv s → ∀ t pd,
      TraceEv.started t pd ∈ (seqVisit body s u).2 → t = u ∧ pd = true) := by
  unfold seqVisit
  by_cases ht : isTaskOf s.oag u = true
  · rw [if_neg (not_not_intro ht)]
    by_cases hd : s.dependencies_satisfied u = true
    · rw [if_neg (not_not_intro hd)]
      obtain ⟨p1, p2, p3, p4, p5, p6⟩ := execute_task_props body s u
      refine ⟨p1, p2, p3, p4, p5, ?_⟩
      intro hInv t pd hmem
      obtain ⟨ht2, hpd⟩ := p6 t pd hmem
      exact ⟨ht2, hpd.trans (predsDone_of_deps s u hInv ht hd)⟩
    · rw [if_pos hd]
      refine ⟨?_, fun j _ => rfl, fun j => rfl, fun j => rfl, ?_, ?_⟩
      · intro j hj
        simp [lookup_dictUpd, hj]
      · intro hInv p r hl hst
        simp only [lookup_dictUpd] at hl
        by_cases hp : p = u
        · rw [if_pos hp] at hl
          cases hl
          simp [skippedResult] at hst
        · rw [if_neg hp] at hl
          exact hInv p r hl hst
      · intro _ t pd hmem
        simp at hmem
  · rw [if_pos ht]
    exact ⟨fun j _ => rfl, fun j _ => rfl, fun j => rfl, fun j => rfl,
      fun hInv => hInv, fun _ t pd hmem => by simp at hmem⟩

theorem seqRun_props (body : ExecBody) (order : List String) :
    ∀ s : ExecState,
    (ResultsDoneInv s → ResultsDoneInv (execute_sequential body s order).1) ∧
    (ResultsDoneInv s → ∀ t pd,
      TraceEv.started t pd ∈ (execute_sequential body s order).2 →
        t ∈ order ∧ pd = true) ∧
    (∀ j, j ∉ order →
      (execute_sequential body s order).1.results.lookup j = s.results.lookup j) ∧
    (∀ j, j ∉ order →
      taskStatusOf (execute_sequential body s order).1.oag j = taskStatusOf s.oag j) := by
  induction order with
  | nil =>
    intro s
    exact ⟨fun h => h, fun _ t pd hmem => by simp [execute_sequential] at hmem,
      fun j _ => rfl, fun j _ => rfl⟩
  | cons u rest ih =>
    intro s
    obtain ⟨v1, v2, v3, v4, v5, v6⟩ := seqVisit_props body s u
    obtain ⟨i1, i2, i3, i4⟩ := ih (seqVisit body s u).1
    simp only [execute_sequential]
    refine ⟨?_, ?_, ?_, ?_⟩
    · intro h
      exact i1 (v5 h)
    · intro h t pd hmem
      rcases List.mem_append.mp hmem with h1 | h2
      · obtain ⟨ht2, hpd⟩ := v6 h t pd h1
        exact ⟨ht2 ▸ List.mem_cons_self _ _, hpd⟩
      · obtain ⟨hmem2, hpd⟩ := i2 (v5 h) t pd h2
        exact ⟨List.mem_cons_of_mem _ hmem2, hpd⟩
    · intro j hj
      have hju : j ≠ u := fun h => hj (h ▸ List.mem_cons_self _ _)
      have hjr : j ∉ rest := fun h => hj (List.mem_cons_of_mem _ h)
      rw [i3 j hjr, v1 j hju]
    · intro j hj
      have hju : j ≠ u := fun h => hj (h ▸ List.mem_cons_self _ _)
      have hjr : j ∉ rest := fun h => hj (List.mem_cons_of_mem _ h)
      rw [i4 j hjr, v2 j hju]

/-! ## Helper lemmas: frontier and wave execution -/

theorem execList_props (body : ExecBody) (l : List String) :
    ∀ s : ExecState,
    ResultsDoneInv s →
    (∀ u ∈ l, s.dependencies_satisfied u = true) →
    (∀ u ∈ l, ∀ p ∈ graphPreds s.oag u, p ∉ l) →
    (ResultsDoneInv (execList body s l).1) ∧
    (∀ t pd, TraceEv.started t pd ∈ (execList body s l).2 → pd = true) ∧
    (∀ j, j ∉ l → (execList body s l).1.results.lookup j = s.results.lookup j) ∧
    (∀ j, j ∉ l →
      taskStatusOf (execList body s l).1.oag j = taskStatusOf s.oag j) ∧
    (∀ j, isTaskOf (execList body s l).1.oag j = isTaskOf s.oag j) ∧
    (∀ j, graphPreds (execList body s l).1.oag j = graphPreds s.oag j) := by
  induction l with
  | nil =>
    intro s hInv _ _
    exact ⟨hInv, fun t pd hmem => by simp [execList] at hmem,
      fun j _ => rfl, fun j _ => rfl, fun j => rfl, fun j => rfl⟩
  | cons u rest ih =>
    intro s hInv hdeps hpreds
    obtain ⟨p1, p2, p3, p4, p5, p6⟩ := execute_task_props body s u
    have hInv1 : ResultsDoneInv (execute_task body s u).1 := p5 hInv
    have hdeps1 : ∀ v ∈ rest, (execute_task body s u).1.dependencies_satisfied v = true := by
      intro v hv
      rw [deps_satisfied_congr (execute_task body s u).1 s v (p3 v) (p4 v) ?_]
      · exact hdeps v (List.mem_cons_of_mem _ hv)
      · intro p hp
        have hpnot : p ∉ u :: rest :=
          hpreds v (List.mem_cons_of_mem _ hv) p hp
        exact p1 p fun h => hpnot (h ▸ List.mem_cons_self _ _)
    have hpreds1 : ∀ v ∈ rest, ∀ p ∈ graphPreds (execute_task body s u).1.oag v,
        p ∉ rest := by
      intro v hv p hp
      rw [p4 v] at hp
      exact fun h =>
        hpreds v (List.mem_cons_of_mem _ hv) p hp (List.mem_cons_of_mem _ h)
    obtain ⟨i1, i2, i3, i4, i5, i6⟩ := ih (execute_task body s u).1 hInv1 hdeps1 hpreds1
    simp only [execList]
    refine ⟨i1, ?_, ?_, ?_, ?_, ?_⟩
    · intro t pd hmem
      rcases List.mem_append.mp hmem with h1 | h2
      · obtain ⟨ht2, hpd⟩ := p6 t pd h1
        subst ht2
        by_cases htask : isTaskOf s.oag t = true
        · exact hpd.trans
            (predsDone_of_deps s t hInv htask (hdeps t (List.mem_cons_self _ _)))
        · rw [execute_task_not_task body s t (by simpa using htask)] at h1
          simp at h1
      · exact i2 t pd h2
    · intro j hj
      have hju : j ≠ u := fun h => hj (h ▸ List.mem_cons_self _ _)
      have hjr : j ∉ rest := fun h => hj (List.mem_cons_of_mem _ h)
      rw [i3 j hjr, p1 j hju]
    · intro j hj
      have hju : j ≠ u := fun h => hj (h ▸ List.mem_cons_self _ _)
      have hjr : j ∉ rest := fun h => hj (List.mem_cons_of_mem _ h)
      rw [i4 j hjr, p2 j hju]
    · intro j
      rw [i5 j, p3 j]
    · intro j
      rw [i6 j, p4 j]

theorem parallel_go_gating (body : ExecBody) (fuel : Nat) :
    ∀ (s : ExecState) (remaining : List String),
    ResultsDoneInv s →
    (∀ u ∈ remaining, s.results.lookup u = none) →
    ∀ t pd, TraceEv.started t pd ∈ (execute_parallel_go body fuel s remaining).2 →
      pd = true := by
  induction fuel with
  | zero =>
    intro s remaining _ _ t pd hmem
    simp [execute_parallel_go] at hmem
  | succ n ih =>
    intro s remaining hInv hJ t pd hmem
    simp only [execute_parallel_go] at hmem
    by_cases hr : (remaining.filter fun v => s.dependencies_satisfied v).isEmpty = true
    · rw [if_pos hr] at hmem
      simp at hmem
    · rw [if_neg hr] at hmem
      have hdeps : ∀ u ∈ remaining.filter (fun v => s.dependencies_satisfied v),
          s.dependencies_satisfied u = true := by
        intro u hu
        exact (List.mem_filter.mp hu).2
      have hpreds : ∀ u ∈ remaining.filter (fun v => s.dependencies_satisfied v),
          ∀ p ∈ graphPreds s.oag u,
            p ∉ remaining.filter (fun v => s.dependencies_satisfied v) := by
        intro u hu p hp hpmem
        obtain ⟨r, hl, _⟩ :=
          deps_done_entries s u (hdeps u hu) p hp
        have : s.results.lookup p = none := hJ p (List.mem_filter.mp hpmem).1
        rw [this] at hl
        cases hl
      obtain ⟨e1, e2, e3, e4, e5, e6⟩ :=
        execList_props body (remaining.filter fun v => s.dependencies_satisfied v)
          s hInv hdeps hpreds
      rcases List.mem_append.mp hmem with h1 | h2
      · exact e2 t pd h1
      · refine ih _ _ e1 ?_ t pd h2
        intro v hv
        have hv1 := List.mem_filter.mp hv
        have hvin : v ∈ remaining := hv1.1
        have hvnot : v ∉ remaining.filter (fun w => s.dependencies_satisfied w) := by
          have := hv1.2
          simp only [decide_eq_true_eq] at this
          exact this
        rw [e3 v hvnot]
        exact hJ v hvin

theorem seqVisit_started_id (body : ExecBody) (s : ExecState) (u t : String)
    (pd : Bool) (h : TraceEv.started t pd ∈ (seqVisit body s u).2) : t = u := by
  unfold seqVisit at h
  by_cases ht : isTaskOf s.oag u = true
  · rw [if_neg (not_not_intro ht)] at h
    by_cases hd : s.dependencies_satisfied u = true
    · rw [if_neg (not_not_intro hd)] at h
      exact ((execute_task_props body s u).2.2.2.2.2 t pd h).1
    · rw [if_pos hd] at h
      simp at h
  · rw [if_pos ht] at h
    simp at h

theorem seqRun_started_mem (body : ExecBody) (order : List String) :
    ∀ (s : ExecState) (t : String) (pd : Bool),
    TraceEv.started t pd ∈ (execute_sequential body s order).2 → t ∈ order := by
  induction order with
  | nil =>
    intro s t pd h
    simp [execute_sequential] at h
  | cons u rest ih =>
    intro s t pd h
    simp only [execute_sequential] at h
    rcases List.mem_append.mp h with h1 | h2
    · exact (seqVisit_started_id body s u t pd h1) ▸ List.mem_cons_self _ _
    · exact List.mem_cons_of_mem _ (ih _ t pd h2)

theorem seqRun_append (body : ExecBody) (l1 l2 : List String) (s : ExecState) :
    execute_sequential body s (l1 ++ l2) =
      ((execute_sequential body (execute_sequential body s l1).1 l2).1,
       (execute_sequential body s l1).2 ++
         (execute_sequential body (execute_sequential body s l1).1 l2).2) := by
  induction l1 generalizing s with
  | nil => simp [execute_sequential]
  | cons u rest ih =>
    simp only [List.cons_append, execute_sequential, List.append_eq]
    rw [ih]
    simp [List.append_assoc]

/-! ## Claim theorems: dependency gating (C1, corrected) -/

/-- C1 counterexample: on a two-task dependency cycle the wave executor
precomputes a single catch-all wave holding both tasks and executes it, so
task_a transitions to RUNNING while its predecessor task_b is not DONE;
the claim that a task with unresolved predecessors is excluded from every
executed wave is false. -/
theorem wave_executor_unmet_preds_cex :
    calculate_waves cycleOAG = [["task_a", "task_b"]] ∧
    TraceEv.started "task_a" false ∈
      (WaveExecutor.execute mockBody (ExecState.init cycleOAG)).2 := by
  exact ⟨by decide, by decide⟩

/-- C1 amended: within one Executor run (sequential or best-effort
parallel strategy, any task order, any task-body outcomes), a task never
transitions to RUNNING while some predecessor task is not DONE; the
WaveExecutor does not re-check predecessor state when executing its
precomputed waves. -/
theorem executor_dependency_gating (body : ExecBody) (s : ExecState)
    (order : List String) (par : Bool)
    (hInv : ResultsDoneInv s)
    (hJ : ∀ u ∈ taskIds s.oag, s.results.lookup u = none) :
    ∀ t pd, TraceEv.started t pd ∈ (Executor.execute body s par order).2 →
      pd = true := by
  intro t pd hmem
  unfold Executor.execute at hmem
  by_cases hb : s.bm.can_proceed = true
  · rw [if_neg (not_not_intro hb)] at hmem
    by_cases hp : par = true
    · rw [if_pos hp] at hmem
      exact parallel_go_gating body (taskIds s.oag).length s (taskIds s.oag)
        hInv hJ t pd hmem
    · rw [if_neg hp] at hmem
      exact ((seqRun_props body order s).2.1 hInv t pd hmem).2
  · rw [if_pos hb] at hmem
    simp at hmem

/-- C1 witness: the gating theorem applied to a parallel run of the
two-task chain rules out a start of task_b with an unmet predecessor. -/
theorem executor_dependency_gating_witness :
    TraceEv.started "task_b" false ∉
      (Executor.execute mockBody (ExecState.init chainOAG) true []).2 := by
  intro hmem
  have h0 : (ExecState.init chainOAG).results = [] := rfl
  have := executor_dependency_gating mockBody (ExecState.init chainOAG) [] true
    (fun p r hl _ => by rw [h0] at hl; simp [List.lookup] at hl)
    (fun u _ => by rw [h0]; rfl)
    "task_b" false hmem
  simp at this

/-! ## Claim theorems: sequential skip (C7, corrected) -/

/-- C7 counterexample: when task_a fails, the sequential walk records a
SKIPPED result for task_b but leaves its OAG status PLANNED, never
transitioning it to SKIPPED as the claim asserts. -/
theorem sequential_skip_status_cex :
    ((execute_sequential failABody (ExecState.init chainOAG)
        ["task_a", "task_b"]).1.results.lookup "task_b" =
      some (skippedResult "task_b")) ∧
    (taskStatusOf (execute_sequential failABody (ExecState.init chainOAG)
        ["task_a", "task_b"]).1.oag "task_b" = some .PLANNED) ∧
    (taskStatusOf (execute_sequential failABody (ExecState.init chainOAG)
        ["task_a", "task_b"]).1.oag "task_b" ≠ some .SKIPPED) := by
  exact ⟨by decide, by decide, by decide⟩

/-- C7 amended: a task visited by the sequential walk whose dependencies
are not satisfied is not executed (no start event for it ever appears in
the run's trace), a result with SKIPPED status is recorded for it and is
still its recorded result at the end of the run, and its status in the OAG
is left untouched (it stays PLANNED rather than becoming SKIPPED). -/
theorem sequential_skip_spec (body : ExecBody) (s : ExecState)
    (pre post : List String) (t : String)
    (hpre : t ∉ pre) (hpost : t ∉ post)
    (htask : isTaskOf (execute_sequential body s pre).1.oag t = true)
    (hdeps : (execute_sequential body s pre).1.dependencies_satisfied t = false) :
    ((execute_sequential body s (pre ++ t :: post)).1.results.lookup t =
      some (skippedResult t)) ∧
    (taskStatusOf (execute_sequential body s (pre ++ t :: post)).1.oag t =
      taskStatusOf (execute_sequential body s pre).1.oag t) ∧
    (∀ pd, TraceEv.started t pd ∉ (execute_sequential body s (pre ++ t :: post)).2) := by
  have hstep : seqVisit body (execute_sequential body s pre).1 t =
      ({ (execute_sequential body s pre).1 with
         results := dictUpd (execute_sequential body s pre).1.results t
           (skippedResult t) }, []) := by
    unfold seqVisit
    rw [if_neg (not_not_intro htask), if_pos (by simp [hdeps])]
  rw [seqRun_append body pre (t :: post) s]
  simp only [execute_sequential, hstep]
  obtain ⟨_, _, i3, i4⟩ := seqRun_props body post
    ({ (execute_sequential body s pre).1 with
       results := dictUpd (execute_sequential body s pre).1.results t
         (skippedResult t) })
  refine ⟨?_, ?_, ?_⟩
  · rw [i3 t hpost]
    simp [lookup_dictUpd]
  · rw [i4 t hpost]
  · intro pd hmem
    simp only [List.nil_append] at hmem
    rcases List.mem_append.mp hmem with h1 | h2
    · exact hpre (seqRun_started_mem body pre s t pd h1)
    · exact hpost (seqRun_started_mem body post _ t pd h2)

/-- C7 witness: the amended spec applied to the failing-chain fixture with
task_b visited after its failed predecessor. -/
theorem sequential_skip_spec_witness :
    (execute_sequential failABody (ExecState.init chainOAG)
        (["task_a"] ++ "task_b" :: [])).1.results.lookup "task_b" =
      some (skippedResult "task_b") :=
  (sequential_skip_spec failABody (ExecState.init chainOAG) ["task_a"] []
    "task_b" (by decide) (by decide) (by decide) (by decide)).1

/-! ## Claim theorem: completion ignores budget rejection (C10) -/

/-- C10: a task whose body completes is marked DONE with its artifacts
stored and its actual cost recorded even when record_spend rejects the
charge; in the rejection case the budget manager's spent total, the budget
actual cost and the spend history are unchanged, so a DONE task can carry
a per-task cost that was never charged to the budget. -/
theorem execute_task_ignores_budget_rejection (body : ExecBody) (s : ExecState)
    (u : String) (ts : TaskSpec) (out : TaskOutput) (cost : ℚ)
    (hn : s.oag.get_node u = some (.task ts))
    (hb : s.bm.can_proceed = true)
    (hbody : body ts = .ok (out, cost)) :
    (taskStatusOf (execute_task body s u).1.oag u = some .DONE) ∧
    (taskArtifactsOf (execute_task body s u).1.oag u = some out.artifacts) ∧
    (taskActualCostOf (execute_task body s u).1.oag u = some cost) ∧
    ((execute_task body s u).1.results.lookup u =
      some { task_id := u, status := .DONE, output := some out, cost := cost }) ∧
    ((execute_task body s u).1.bm = (s.bm.record_spend cost).2) ∧
    (s.bm.spent + cost > s.bm.budget.caps.hard_cap_usd →
      (execute_task body s u).1.bm.spent = s.bm.spent ∧
      (execute_task body s u).1.bm.budget.actual_cost_usd =
        s.bm.budget.actual_cost_usd ∧
      (execute_task body s u).1.bm.spend_history = s.bm.spend_history) := by
  have htask : isTaskOf s.oag u = true := (isTaskOf_iff s.oag u).mpr ⟨ts, hn⟩
  rw [execute_task_ok body s u ts out cost hn hb hbody]
  have htask1 : isTaskOf (s.oag.setTaskStatus u .RUNNING) u = true := by
    rw [isTaskOf_setTaskStatus]
    exact htask
  refine ⟨?_, ?_, ?_, ?_, rfl, ?_⟩
  · exact taskStatusOf_setTaskDone_self _ _ _ _ htask1
  · exact taskArtifactsOf_setTaskDone_self _ _ _ _ htask1
  · exact taskActualCostOf_setTaskDone_self _ _ _ _ htask1
  · simp [lookup_dictUpd]
  · intro hover
    rw [record_spend_reject s.bm cost "" hover]
    simp [BudgetManager.add_alert]

/-- C10 witness: a 20-dollar task against a 10-dollar hard cap ends DONE
with actual cost 20 while the budget manager still shows zero spent. -/
theorem execute_task_ignores_budget_rejection_witness :
    (taskStatusOf (execute_task mockBody (ExecState.init overOAG) "task_big").1.oag
      "task_big" = some .DONE) ∧
    ((execute_task mockBody (ExecState.init overOAG) "task_big").1.bm.spent = 0) ∧
    (taskActualCostOf (execute_task mockBody (ExecState.init overOAG)
        "task_big").1.oag "task_big" = some 20) := by
  have h := execute_task_ignores_budget_rejection mockBody (ExecState.init overOAG)
    "task_big" (fixtureTask "task_big" "Big" 20)
    { result := "Completed Big", artifacts := [("data", "sample")] } 20
    (by decide) (by decide) (by rfl)
  refine ⟨h.1, ?_, h.2.2.1⟩
  have := (h.2.2.2.2.2 (by decide)).1
  rw [this]
  rfl

/-! ## Claim theorems: balanced staffing bands (C9, corrected) -/

/-- C9 counterexample: under the balanced policy the middle and the high
band produce OAGs with the same number of distinct agents (15 each), so
the agent count does not strictly increase from the [50,200) band to the
200-and-above band. -/
theorem planner_agent_count_band_cex :
    agentCount (Planner.plan "balanced" pfEmpty "pid" balancedPRD 100) = 15 ∧
    agentCount (Planner.plan "balanced" pfEmpty "pid" balancedPRD 300) = 15 := by
  exact ⟨by decide, by decide⟩

/-- C9 amended: balanced staffing asks for (1,2,2,4), (2,3,4,8) and
(3,4,5,10) vps/directors/managers/ics across the three budget bands, but
the even-distribution id scheme generates colliding manager and IC ids
that overwrite one another in the nodes map, so the produced OAGs hold 10,
15 and 15 distinct agents at the representative budgets 30, 100 and 300:
the count strictly increases from the low to the middle band and is equal
between the middle and the high band. -/
theorem planner_staffing_band_counts :
    (∀ budget : ℚ,
      (budget < 50 → Selector.determine_staffing_level "balanced" budget =
        { vps := 1, directors := 2, managers := 2, ics := 4 }) ∧
      (50 ≤ budget → budget < 200 →
        Selector.determine_staffing_level "balanced" budget =
          { vps := 2, directors := 3, managers := 4, ics := 8 }) ∧
      (200 ≤ budget → Selector.determine_staffing_level "balanced" budget =
        { vps := 3, directors := 4, managers := 5, ics := 10 })) ∧
    agentCount (Planner.plan "balanced" pfEmpty "pid" balancedPRD 30) = 10 ∧
    agentCount (Planner.plan "balanced" pfEmpty "pid" balancedPRD 100) = 15 ∧
    agentCount (Planner.plan "balanced" pfEmpty "pid" balancedPRD 300) = 15 := by
  refine ⟨?_, by decide, by decide, by decide⟩
  intro budget
  unfold Selector.determine_staffing_level
  rw [if_neg (by decide : ¬ ("balanced" = "conservative")),
    if_neg (by decide : ¬ ("balanced" = "aggressive"))]
  refine ⟨?_, ?_, ?_⟩
  · intro h1
    rw [if_pos h1]
  · intro h1 h2
    rw [if_neg (not_lt.mpr h1), if_pos h2]
  · intro h1
    rw [if_neg (not_lt.mpr (le_trans (by norm_num) h1)),
      if_neg (not_lt.mpr h1)]

/-- C9 witness: the middle staffing band applied at budget 100. -/
theorem planner_staffing_band_counts_witness :
    Selector.determine_staffing_level "balanced" 100 =
      { vps := 2, directors := 3, managers := 4, ics := 8 } :=
  (planner_staffing_band_counts.1 100).2.1 (by norm_num) (by norm_num)

end Plugah
